import Mathlib

/-!
Shallow embedding of the `sim-mt-cc` Turing-machine simulator and proofs
about its specification claims.

The definitions mirror the C++ sources: `Tape.cpp`, `Transition.cpp`,
`MultiTransition.cpp` (MultiTape part), `Configuration.hpp`,
`MultiConfiguration.cpp`, `Parser.cpp` (TuringMachine and parser parts),
the MultiTuringMachine implementation, `Simulator.cpp` and `main.cpp`.
Sparse tapes are association lists from `Int` positions to symbols, sets
are duplicate-free lists, the transition table is an association list
keyed exactly as in the C++ (`(state, symbol)` and `(state, symbols)`),
and the possibly nonterminating simulation loop takes explicit fuel:
`none` means the loop was not finished within the given fuel.
-/

set_option autoImplicit false

namespace MTSim

/-- Insert into a set modelled as a duplicate-free list
(`std::unordered_set::insert`): no change when already present. -/
def setInsert {α : Type} [DecidableEq α] (a : α) (l : List α) : List α :=
  if a ∈ l then l else a :: l

/-- First-match association-list lookup (`std::map::find` /
`std::unordered_map::find`, whose keys are unique). -/
def alistFind {κ β : Type} [DecidableEq κ] (k : κ) : List (κ × β) → Option β
  | [] => none
  | (k0, v) :: rest => if k0 = k then some v else alistFind k rest

/-- Head movements (`enum class Movement` in the source). -/
inductive Movement where
  | LEFT
  | RIGHT
  | STAY
deriving DecidableEq

/-- One single-tape transition (`class Transition`). -/
structure Transition where
  from_state : String
  read_symbol : Char
  to_state : String
  write_symbol : Char
  movement : Movement
deriving DecidableEq

/-- Model of `Transition::char_to_movement`: L/R/S case-insensitive, anything else
throws `std::invalid_argument`. -/
def char_to_movement (c : Char) : Except String Movement :=
  if c = 'L' ∨ c = 'l' then .ok .LEFT
  else if c = 'R' ∨ c = 'r' then .ok .RIGHT
  else if c = 'S' ∨ c = 's' then .ok .STAY
  else .error "Movimiento invalido"

/-- Decimal digit characters in order; the target set of `digitChar`. -/
def digitList : List Char := ['0', '1', '2', '3', '4', '5', '6', '7', '8', '9']

/-- The character for one decimal digit (`'0' + d` in the C++ runtime's
integer printing; inputs are always below 10). -/
def digitChar : Nat → Char
  | 0 => '0'
  | 1 => '1'
  | 2 => '2'
  | 3 => '3'
  | 4 => '4'
  | 5 => '5'
  | 6 => '6'
  | 7 => '7'
  | 8 => '8'
  | _ => '9'

/-- Fuel-indexed decimal digit expansion of a natural number
(most-significant digit first); structural so that it computes by `decide`. -/
def natDigitsAux : Nat → Nat → List Char
  | 0, _ => []
  | fuel + 1, n =>
    if n < 10 then [digitChar n]
    else natDigitsAux fuel (n / 10) ++ [digitChar (n % 10)]

/-- Decimal digits of a natural number, most-significant first. -/
def natDigits (n : Nat) : List Char := natDigitsAux (n + 1) n

/-- Decimal rendering of a natural number, as produced by
`std::ostream::operator<<` / `std::to_string`. -/
def natStr (n : Nat) : String := ⟨natDigits n⟩

/-- Character list of the decimal rendering of a signed integer:
a leading minus sign for negative numbers, then the digits of the
magnitude, exactly as `std::ostream::operator<<(int)` prints it. -/
def intChars : Int → List Char
  | .ofNat n => natDigits n
  | .negSucc n => '-' :: natDigits (n + 1)

/-- Decimal rendering of a signed integer (`oss << head_position_`). -/
def intStr (i : Int) : String := ⟨intChars i⟩

/-- Join strings with a separator, as the `to_compact_string` loops do
(`if (i > 0) oss << sep;` or trailing-separator-except-last). -/
def joinSep (sep : String) : List String → String
  | [] => ""
  | [s] => s
  | s :: rest => s ++ sep ++ joinSep sep rest

/-- Character-list version of `joinSep`, used to reason about the
fingerprint encodings. -/
def joinChars (sep : List Char) : List (List Char) → List Char
  | [] => []
  | [s] => s
  | s :: rest => s ++ sep ++ joinChars sep rest

/-! ## Sparse cells of a tape (`std::map<int, char> cells_`) -/

/-- Model of `cells_.find(p)`: the symbol stored at position `p`, if any. -/
def cellsFind (p : Int) : List (Int × Char) → Option Char
  | [] => none
  | (k, v) :: rest => if k = p then some v else cellsFind p rest

/-- Model of `cells_[p] = s`: store `s` at position `p`, replacing any existing
entry for that key (map keys are unique). -/
def cellsInsert (p : Int) (s : Char) : List (Int × Char) → List (Int × Char)
  | [] => [(p, s)]
  | (k, v) :: rest => if k = p then (p, s) :: rest else (k, v) :: cellsInsert p s rest

/-- Model of `cells_.erase(p)`: drop the entry for key `p`, if present. -/
def cellsErase (p : Int) : List (Int × Char) → List (Int × Char)
  | [] => []
  | (k, v) :: rest => if k = p then rest else (k, v) :: cellsErase p rest

/-- The keys of a cell map. -/
def cellKeys (l : List (Int × Char)) : List Int := l.map Prod.fst

/-- The sparse bi-infinite tape (`class Tape`): cell map, head position,
blank symbol. -/
structure Tape where
  cells : List (Int × Char)
  head_position : Int
  blank_symbol : Char
deriving DecidableEq

namespace Tape

/-- Model of `Tape::read`: symbol under the head, or the blank symbol when the
position is absent from the map. -/
def read (t : Tape) : Char :=
  match cellsFind t.head_position t.cells with
  | some s => s
  | none => t.blank_symbol

/-- Model of `Tape::write`: writing the blank erases the entry, any other symbol
is stored at the head position. -/
def write (t : Tape) (symbol : Char) : Tape :=
  if symbol = t.blank_symbol then
    { t with cells := cellsErase t.head_position t.cells }
  else
    { t with cells := cellsInsert t.head_position symbol t.cells }

/-- Model of `Tape::move_left`. -/
def move_left (t : Tape) : Tape := { t with head_position := t.head_position - 1 }

/-- Model of `Tape::move_right`. -/
def move_right (t : Tape) : Tape := { t with head_position := t.head_position + 1 }

/-- Model of `Tape::set_head_position`. -/
def set_head_position (t : Tape) (p : Int) : Tape := { t with head_position := p }

end Tape

/-- The loop body of `Tape::reset`: write the input characters at
positions `i, i+1, ...`, skipping characters equal to the blank. -/
def loadCells (blank : Char) : Int → List Char → List (Int × Char)
  | _, [] => []
  | i, c :: rest =>
    if c = blank then loadCells blank (i + 1) rest
    else (i, c) :: loadCells blank (i + 1) rest

namespace Tape

/-- Model of `Tape::reset`: clear the cells, lay down the input word starting at
position 0 (blanks skipped), head back at 0. -/
def reset (t : Tape) (input : String) : Tape :=
  { t with cells := loadCells t.blank_symbol 0 input.data, head_position := 0 }

/-- Model of `Tape::get_content`: empty when the map is empty, otherwise the
symbols from the least to the greatest stored key, absent interior
positions rendered as the blank symbol. -/
def get_content (t : Tape) : String :=
  match t.cells with
  | [] => ""
  | c :: rest =>
    let lo := (cellKeys rest).foldl min c.1
    let hi := (cellKeys rest).foldl max c.1
    ⟨(List.range (hi - lo + 1).toNat).map fun i =>
      match cellsFind (lo + i) t.cells with
      | some s => s
      | none => t.blank_symbol⟩

/-- Model of `Tape::is_empty`. -/
def is_empty (t : Tape) : Bool := t.cells.isEmpty

end Tape

/-- A tape freshly constructed from an input word
(`Tape::Tape(const std::string&, char)`). -/
def tapeFromWord (input : String) (blank : Char) : Tape :=
  Tape.reset ⟨[], 0, blank⟩ input

/-- Modelled from the spec: `content()` is "the minimal string covering
every non-blank position, filling interior blanks with the blank symbol;
the empty string if the tape is entirely blank".  The span runs from the
leftmost to the rightmost non-blank cell. -/
def content_spec (t : Tape) : String :=
  match t.cells.filter (fun kv => kv.2 != t.blank_symbol) with
  | [] => ""
  | c :: rest =>
    let nb := c :: rest
    let lo := (cellKeys rest).foldl min c.1
    let hi := (cellKeys rest).foldl max c.1
    ⟨(List.range (hi - lo + 1).toNat).map fun i =>
      match cellsFind (lo + i) nb with
      | some s => s
      | none => t.blank_symbol⟩

/-- A single-tape instantaneous description (`class Configuration`). -/
structure Configuration where
  current_state : String
  tape : Tape
  step_count : Nat
deriving DecidableEq

/-- Model of `Configuration::to_compact_string`:
`state | head position | tape content`. -/
def Configuration.to_compact_string (c : Configuration) : String :=
  c.current_state ++ "|" ++ intStr c.tape.head_position ++ "|" ++ c.tape.get_content

/-! ## The single-tape machine (`class TuringMachine`) -/

/-- The 7-tuple plus the transition table, keyed by `(state, symbol)`. -/
structure TuringMachine where
  states : List String
  input_alphabet : List Char
  tape_alphabet : List Char
  initial_state : String
  accept_states : List String
  blank_symbol : Char
  transitions : List ((String × Char) × Transition)
deriving DecidableEq

namespace TuringMachine

/-- The constructor: empty machine whose tape alphabet already holds the
blank symbol. -/
def new (blank : Char) : TuringMachine :=
  { states := [], input_alphabet := [], tape_alphabet := [blank],
    initial_state := "", accept_states := [], blank_symbol := blank,
    transitions := [] }

/-- Model of `TuringMachine::add_state`: empty names throw. -/
def add_state (m : TuringMachine) (s : String) : Except String TuringMachine :=
  if s = "" then .error "El nombre del estado no puede estar vacio"
  else .ok { m with states := setInsert s m.states }

/-- Model of `TuringMachine::add_input_symbol`: the blank may not be an input
symbol; the symbol also joins the tape alphabet. -/
def add_input_symbol (m : TuringMachine) (c : Char) : Except String TuringMachine :=
  if c = m.blank_symbol then
    .error "El simbolo blanco no puede estar en el alfabeto de entrada"
  else .ok { m with input_alphabet := setInsert c m.input_alphabet,
                    tape_alphabet := setInsert c m.tape_alphabet }

/-- Model of `TuringMachine::add_tape_symbol`. -/
def add_tape_symbol (m : TuringMachine) (c : Char) : TuringMachine :=
  { m with tape_alphabet := setInsert c m.tape_alphabet }

/-- Model of `TuringMachine::set_initial_state`: records the state and auto-inserts
it into the state set. -/
def set_initial_state (m : TuringMachine) (s : String) : Except String TuringMachine :=
  if s = "" then .error "El nombre del estado no puede estar vacio"
  else .ok { m with initial_state := s, states := setInsert s m.states }

/-- Model of `TuringMachine::add_accept_state`: also auto-inserts into the state
set. -/
def add_accept_state (m : TuringMachine) (s : String) : Except String TuringMachine :=
  if s = "" then .error "El nombre del estado no puede estar vacio"
  else .ok { m with accept_states := setInsert s m.accept_states,
                    states := setInsert s m.states }

/-- Model of `TuringMachine::set_blank_symbol`: when the symbol changes, the new
blank is inserted into the tape alphabet (the old one is kept). -/
def set_blank_symbol (m : TuringMachine) (c : Char) : TuringMachine :=
  if m.blank_symbol = c then m
  else { m with blank_symbol := c, tape_alphabet := setInsert c m.tape_alphabet }

/-- Model of `TuringMachine::get_transition`: lookup by `(state, symbol)` key. -/
def get_transition (m : TuringMachine) (s : String) (c : Char) : Option Transition :=
  alistFind (s, c) m.transitions

/-- Model of `TuringMachine::add_transition`: both states must be declared, the
read and write symbols are auto-inserted into the tape alphabet, and a
duplicate `(from_state, read_symbol)` key throws. -/
def add_transition (m : TuringMachine) (t : Transition) : Except String TuringMachine :=
  if t.from_state ∉ m.states then .error "Estado origen no declarado"
  else if t.to_state ∉ m.states then .error "Estado destino no declarado"
  else
    let m1 := (m.add_tape_symbol t.read_symbol).add_tape_symbol t.write_symbol
    if (m1.get_transition t.from_state t.read_symbol).isSome then
      .error "Ya existe una transicion para este estado y simbolo"
    else .ok { m1 with transitions := m1.transitions ++ [((t.from_state, t.read_symbol), t)] }

/-- Model of `TuringMachine::is_valid`: the structural checks I1-I3 as coded. -/
def is_valid (m : TuringMachine) : Bool :=
  !m.states.isEmpty &&
  m.initial_state != "" &&
  m.states.contains m.initial_state &&
  m.accept_states.all (fun s => m.states.contains s) &&
  m.tape_alphabet.contains m.blank_symbol &&
  m.input_alphabet.all (fun c => m.tape_alphabet.contains c && c != m.blank_symbol) &&
  m.transitions.all (fun kt =>
    m.states.contains kt.2.from_state && m.states.contains kt.2.to_state &&
    m.tape_alphabet.contains kt.2.read_symbol && m.tape_alphabet.contains kt.2.write_symbol)

/-- Model of `TuringMachine::is_accept_state`. -/
def is_accept_state (m : TuringMachine) (s : String) : Bool :=
  m.accept_states.contains s

/-- Model of `TuringMachine::is_input_symbol`. -/
def is_input_symbol (m : TuringMachine) (c : Char) : Bool :=
  m.input_alphabet.contains c

/-- Model of `TuringMachine::is_valid_input_word`: every character is an input
symbol. -/
def is_valid_input_word (m : TuringMachine) (w : String) : Bool :=
  w.data.all (fun c => m.is_input_symbol c)

/-- Model of `TuringMachine::clear`: everything cleared, the blank symbol kept and
re-inserted into the tape alphabet. -/
def clear (m : TuringMachine) : TuringMachine :=
  { states := [], input_alphabet := [], tape_alphabet := [m.blank_symbol],
    initial_state := "", accept_states := [], blank_symbol := m.blank_symbol,
    transitions := [] }

end TuringMachine

/-! ## The single-tape simulator (`class Simulator`) -/

/-- Model of `enum class SimulationResult`. -/
inductive SimulationResult where
  | ACCEPTED
  | REJECTED
  | INFINITE
  | ERROR
deriving DecidableEq

/-- Model of `Simulator::result_to_string`. -/
def result_to_string : SimulationResult → String
  | .ACCEPTED => "ACCEPT"
  | .REJECTED => "REJECT"
  | .INFINITE => "INFINITE"
  | .ERROR => "ERROR"

/-- Observable state of a finished simulation: the returned result plus
the simulator members readable afterwards (`current_config_`,
`visited_configurations_`, `trace_`). -/
structure SimOutcome where
  result : SimulationResult
  final : Configuration
  visited : List String
  trace : List Configuration
deriving DecidableEq

/-- Model of `Simulator::step`: look up the transition for the current state and
read symbol; write, move, change state, bump the step counter.  `none`
exactly when no transition is defined. -/
def stepFn (m : TuringMachine) (c : Configuration) : Option Configuration :=
  match m.get_transition c.current_state c.tape.read with
  | none => none
  | some t =>
    let t1 := c.tape.write t.write_symbol
    let t2 := match t.movement with
      | .LEFT => t1.move_left
      | .RIGHT => t1.move_right
      | .STAY => t1
    some { current_state := t.to_state, tape := t2, step_count := c.step_count + 1 }

/-- The main loop of `Simulator::simulate`, fuel-indexed.  Each iteration:
budget check, accept check, halt-reject check, step (whose failure branch
is the loop's only ERROR exit), then the visited-fingerprint check; new
configurations are marked visited and appended to the trace. -/
def simLoop (m : TuringMachine) (max_steps : Nat) (enable_trace : Bool) :
    Nat → List String → List Configuration → Configuration → Option SimOutcome
  | 0, _, _, _ => none
  | fuel + 1, visited, trace, c =>
    if 0 < max_steps ∧ max_steps ≤ c.step_count then
      some ⟨.INFINITE, c, visited, trace⟩
    else if m.is_accept_state c.current_state then
      some ⟨.ACCEPTED, c, visited, trace⟩
    else if (m.get_transition c.current_state c.tape.read).isNone then
      some ⟨.REJECTED, c, visited, trace⟩
    else
      match stepFn m c with
      | none => some ⟨.ERROR, c, visited, trace⟩
      | some c2 =>
        if c2.to_compact_string ∈ visited then
          some ⟨.INFINITE, c2, visited, trace⟩
        else
          simLoop m max_steps enable_trace fuel
            (c2.to_compact_string :: visited)
            (if enable_trace then trace ++ [c2] else trace) c2

/-- Model of `Simulator::reset` result: state set to the initial state, the word
on a fresh tape, head at 0, step counter zeroed. -/
def initialConfiguration (m : TuringMachine) (w : String) : Configuration :=
  { current_state := m.initial_state, tape := tapeFromWord w m.blank_symbol,
    step_count := 0 }

/-- Model of `Simulator::simulate`: validity and input-word preconditions, then
reset, mark the initial fingerprint visited (and trace it), and run the
main loop. -/
def simulate (m : TuringMachine) (w : String) (enable_trace : Bool)
    (max_steps fuel : Nat) : Option SimOutcome :=
  if ¬ m.is_valid then some ⟨.ERROR, initialConfiguration m w, [], []⟩
  else if ¬ m.is_valid_input_word w then some ⟨.ERROR, initialConfiguration m w, [], []⟩
  else
    let c0 := initialConfiguration m w
    simLoop m max_steps enable_trace fuel [c0.to_compact_string]
      (if enable_trace then [c0] else []) c0

/-- Model of `Simulator::is_infinite_loop_detected`, evaluated after the run: is
the final configuration's fingerprint in the visited set? -/
def is_infinite_loop_detected (o : SimOutcome) : Bool :=
  o.visited.contains o.final.to_compact_string

/-! ## Multi-tape transitions (`class MultiTransition`) -/

/-- One k-tape transition (raw record; `MultiTransition.make` models the
validating constructor). -/
structure MultiTransition where
  from_state : String
  read_symbols : List Char
  to_state : String
  write_symbols : List Char
  movements : List Movement
deriving DecidableEq

namespace MultiTransition

/-- Model of `MultiTransition::is_well_formed`: the three vectors share one
non-zero length. -/
def is_well_formed (t : MultiTransition) : Bool :=
  t.write_symbols.length == t.read_symbols.length &&
  t.movements.length == t.read_symbols.length &&
  t.read_symbols.length > 0

/-- The validating constructor: throws on malformed vectors. -/
def make (from_state : String) (read_symbols : List Char) (to_state : String)
    (write_symbols : List Char) (movements : List Movement) :
    Except String MultiTransition :=
  let t : MultiTransition := ⟨from_state, read_symbols, to_state, write_symbols, movements⟩
  if t.is_well_formed then .ok t
  else .error "Transicion multicinta mal formada"

/-- Model of `MultiTransition::get_num_tapes` = `read_symbols_.size()`. -/
def get_num_tapes (t : MultiTransition) : Nat := t.read_symbols.length

end MultiTransition

/-! ## Multi-tape storage (`class MultiTape`) -/

/-- The default-constructed tape used where the C++ would exhibit
undefined behaviour on an out-of-range raw vector access (never reached
through the guarded interface). -/
def defaultTape : Tape := ⟨[], 0, '.'⟩

/-- A bundle of tapes plus the recorded tape count (`class MultiTape`). -/
structure MultiTape where
  tapes : List Tape
  num_tapes : Nat
deriving DecidableEq

namespace MultiTape

/-- Model of `MultiTape::MultiTape(size_t, char)`: k blank tapes; zero tapes
throws. -/
def make (n : Nat) (blank : Char) : Except String MultiTape :=
  if n = 0 then .error "El numero de cintas debe ser mayor que 0"
  else .ok ⟨List.replicate n ⟨[], 0, blank⟩, n⟩

/-- Model of `MultiTape::MultiTape(size_t, const std::string&, char)`: the word on
the first tape, the rest blank. -/
def make_with_word (n : Nat) (input : String) (blank : Char) : Except String MultiTape :=
  if n = 0 then .error "El numero de cintas debe ser mayor que 0"
  else .ok ⟨tapeFromWord input blank :: List.replicate (n - 1) ⟨[], 0, blank⟩, n⟩

/-- Model of `MultiTape::is_valid_tape_index`. -/
def is_valid_tape_index (mt : MultiTape) (i : Nat) : Bool := i < mt.num_tapes

/-- Model of `MultiTape::read(i)`: throws `std::out_of_range` on an invalid
index. -/
def read (mt : MultiTape) (i : Nat) : Except String Char :=
  if ¬ mt.is_valid_tape_index i then
    .error ("Indice de cinta invalido: " ++ natStr i)
  else .ok (mt.tapes.getD i defaultTape).read

/-- Model of `MultiTape::write(i, s)`. -/
def write (mt : MultiTape) (i : Nat) (s : Char) : Except String MultiTape :=
  if ¬ mt.is_valid_tape_index i then
    .error ("Indice de cinta invalido: " ++ natStr i)
  else .ok { mt with tapes := mt.tapes.set i ((mt.tapes.getD i defaultTape).write s) }

/-- Model of `MultiTape::move(i, movement)`. -/
def move (mt : MultiTape) (i : Nat) (mv : Movement) : Except String MultiTape :=
  if ¬ mt.is_valid_tape_index i then
    .error ("Indice de cinta invalido: " ++ natStr i)
  else
    let moved := match mv with
      | .LEFT => (mt.tapes.getD i defaultTape).move_left
      | .RIGHT => (mt.tapes.getD i defaultTape).move_right
      | .STAY => mt.tapes.getD i defaultTape
    .ok { mt with tapes := mt.tapes.set i moved }

/-- Model of `MultiTape::get_head_position(i)`. -/
def get_head_position (mt : MultiTape) (i : Nat) : Except String Int :=
  if ¬ mt.is_valid_tape_index i then
    .error ("Indice de cinta invalido: " ++ natStr i)
  else .ok (mt.tapes.getD i defaultTape).head_position

/-- Model of `MultiTape::set_head_position(i, p)`. -/
def set_head_position (mt : MultiTape) (i : Nat) (p : Int) : Except String MultiTape :=
  if ¬ mt.is_valid_tape_index i then
    .error ("Indice de cinta invalido: " ++ natStr i)
  else .ok { mt with tapes := mt.tapes.set i ((mt.tapes.getD i defaultTape).set_head_position p) }

/-- Model of `MultiTape::get_tape_content(i)`. -/
def get_tape_content (mt : MultiTape) (i : Nat) : Except String String :=
  if ¬ mt.is_valid_tape_index i then
    .error ("Indice de cinta invalido: " ++ natStr i)
  else .ok (mt.tapes.getD i defaultTape).get_content

/-- Model of `MultiTape::get_tape(i)`. -/
def get_tape (mt : MultiTape) (i : Nat) : Except String Tape :=
  if ¬ mt.is_valid_tape_index i then
    .error ("Indice de cinta invalido: " ++ natStr i)
  else .ok (mt.tapes.getD i defaultTape)

/-- Model of `MultiTape::read_all` and the symbol-collection loops in
`MultiSimulator`: the symbol under each head, for tape indices
`0 .. num_tapes-1`. -/
def read_all (mt : MultiTape) : List Char :=
  (List.range mt.num_tapes).map fun i => (mt.tapes.getD i defaultTape).read

/-- The head positions for tape indices `0 .. num_tapes-1`, as printed by
`MultiConfiguration::to_compact_string`. -/
def head_list (mt : MultiTape) : List Int :=
  (List.range mt.num_tapes).map fun i => (mt.tapes.getD i defaultTape).head_position

/-- The tape contents for tape indices `0 .. num_tapes-1`, as printed by
`MultiConfiguration::to_compact_string`. -/
def content_list (mt : MultiTape) : List String :=
  (List.range mt.num_tapes).map fun i => (mt.tapes.getD i defaultTape).get_content

end MultiTape

/-- A k-tape instantaneous description (`class MultiConfiguration`). -/
structure MultiConfiguration where
  current_state : String
  tapes : MultiTape
  step_count : Nat
deriving DecidableEq

/-- Model of `MultiConfiguration::to_compact_string`:
`state | h1,h2,...,hk | c1|c2|...|ck`. -/
def MultiConfiguration.to_compact_string (c : MultiConfiguration) : String :=
  c.current_state ++ "|" ++ joinSep "," (c.tapes.head_list.map intStr) ++ "|" ++
    joinSep "|" c.tapes.content_list

/-! ## The multi-tape machine (`class MultiTuringMachine`) -/

/-- The 7-tuple plus tape count and the transition table keyed by
`(state, read-symbol vector)`. -/
structure MultiTuringMachine where
  states : List String
  input_alphabet : List Char
  tape_alphabet : List Char
  initial_state : String
  accept_states : List String
  blank_symbol : Char
  num_tapes : Nat
  transitions : List ((String × List Char) × MultiTransition)
deriving DecidableEq

namespace MultiTuringMachine

/-- The constructor: zero tapes throws; the blank symbol starts in the
tape alphabet. -/
def new (n : Nat) (blank : Char) : Except String MultiTuringMachine :=
  if n = 0 then .error "El numero de cintas debe ser mayor que 0"
  else .ok { states := [], input_alphabet := [], tape_alphabet := [blank],
             initial_state := "", accept_states := [], blank_symbol := blank,
             num_tapes := n, transitions := [] }

/-- Model of `MultiTuringMachine::add_state`. -/
def add_state (m : MultiTuringMachine) (s : String) : Except String MultiTuringMachine :=
  if s = "" then .error "El nombre del estado no puede estar vacio"
  else .ok { m with states := setInsert s m.states }

/-- Model of `MultiTuringMachine::add_input_symbol`. -/
def add_input_symbol (m : MultiTuringMachine) (c : Char) : Except String MultiTuringMachine :=
  if c = m.blank_symbol then
    .error "El simbolo blanco no puede estar en el alfabeto de entrada"
  else .ok { m with input_alphabet := setInsert c m.input_alphabet,
                    tape_alphabet := setInsert c m.tape_alphabet }

/-- Model of `MultiTuringMachine::add_tape_symbol`. -/
def add_tape_symbol (m : MultiTuringMachine) (c : Char) : MultiTuringMachine :=
  { m with tape_alphabet := setInsert c m.tape_alphabet }

/-- Model of `MultiTuringMachine::set_initial_state`: auto-inserts into the state
set. -/
def set_initial_state (m : MultiTuringMachine) (s : String) : Except String MultiTuringMachine :=
  if s = "" then .error "El nombre del estado no puede estar vacio"
  else .ok { m with initial_state := s, states := setInsert s m.states }

/-- Model of `MultiTuringMachine::add_accept_state`. -/
def add_accept_state (m : MultiTuringMachine) (s : String) : Except String MultiTuringMachine :=
  if s = "" then .error "El nombre del estado no puede estar vacio"
  else .ok { m with accept_states := setInsert s m.accept_states,
                    states := setInsert s m.states }

/-- Model of `MultiTuringMachine::set_blank_symbol`. -/
def set_blank_symbol (m : MultiTuringMachine) (c : Char) : MultiTuringMachine :=
  if m.blank_symbol = c then m
  else { m with blank_symbol := c, tape_alphabet := setInsert c m.tape_alphabet }

/-- Model of `MultiTuringMachine::set_num_tapes`: zero throws. -/
def set_num_tapes (m : MultiTuringMachine) (n : Nat) : Except String MultiTuringMachine :=
  if n = 0 then .error "El numero de cintas debe ser mayor que 0"
  else .ok { m with num_tapes := n }

/-- Model of `MultiTuringMachine::get_transition`: tuples of the wrong length find
nothing. -/
def get_transition (m : MultiTuringMachine) (s : String) (symbols : List Char) :
    Option MultiTransition :=
  if symbols.length ≠ m.num_tapes then none
  else alistFind (s, symbols) m.transitions

/-- The symbol-insertion loop of `MultiTuringMachine::add_transition`:
for each tape, add the read symbol and then the write symbol to the tape
alphabet. -/
def add_transition_symbols (m : MultiTuringMachine) :
    List (Char × Char) → MultiTuringMachine
  | [] => m
  | (r, w) :: rest => add_transition_symbols ((m.add_tape_symbol r).add_tape_symbol w) rest

/-- Model of `MultiTuringMachine::add_transition`: tape-count check, auto-insert
of both states and all read/write symbols, duplicate-key check.  An
out-of-range write vector throws via `get_write_symbol`. -/
def add_transition (m : MultiTuringMachine) (t : MultiTransition) :
    Except String MultiTuringMachine :=
  if t.get_num_tapes ≠ m.num_tapes then
    .error "El numero de cintas de la transicion no coincide con la maquina"
  else match m.add_state t.from_state with
  | .error e => .error e
  | .ok m1 =>
    match m1.add_state t.to_state with
    | .error e => .error e
    | .ok m2 =>
      if t.write_symbols.length < m2.num_tapes then
        .error "Indice de cinta fuera de rango"
      else
        let m3 := m2.add_transition_symbols (t.read_symbols.zip t.write_symbols)
        if (alistFind (t.from_state, t.read_symbols) m3.transitions).isSome then
          .error "Ya existe una transicion para este estado y simbolos"
        else .ok { m3 with transitions := m3.transitions ++ [((t.from_state, t.read_symbols), t)] }

/-- Model of `MultiTuringMachine::is_valid`. -/
def is_valid (m : MultiTuringMachine) : Bool :=
  !m.states.isEmpty &&
  m.initial_state != "" &&
  m.states.contains m.initial_state &&
  (m.num_tapes != 0) &&
  m.accept_states.all (fun s => m.states.contains s) &&
  m.tape_alphabet.contains m.blank_symbol &&
  m.input_alphabet.all (fun c => m.tape_alphabet.contains c && c != m.blank_symbol) &&
  m.transitions.all (fun kt =>
    kt.2.get_num_tapes == m.num_tapes &&
    m.states.contains kt.2.from_state && m.states.contains kt.2.to_state &&
    (List.range m.num_tapes).all (fun i =>
      m.tape_alphabet.contains (kt.2.read_symbols.getD i ' ') &&
      m.tape_alphabet.contains (kt.2.write_symbols.getD i ' ')))

/-- Model of `MultiTuringMachine::is_accept_state`. -/
def is_accept_state (m : MultiTuringMachine) (s : String) : Bool :=
  m.accept_states.contains s

/-- Model of `MultiTuringMachine::is_input_symbol`. -/
def is_input_symbol (m : MultiTuringMachine) (c : Char) : Bool :=
  m.input_alphabet.contains c

/-- Model of `MultiTuringMachine::is_valid_input_word`. -/
def is_valid_input_word (m : MultiTuringMachine) (w : String) : Bool :=
  w.data.all (fun c => m.is_input_symbol c)

/-- Model of `MultiTuringMachine::clear`: everything but the blank symbol and the
tape count cleared. -/
def clear (m : MultiTuringMachine) : MultiTuringMachine :=
  { states := [], input_alphabet := [], tape_alphabet := [m.blank_symbol],
    initial_state := "", accept_states := [], blank_symbol := m.blank_symbol,
    num_tapes := m.num_tapes, transitions := [] }

end MultiTuringMachine

/-! ## The multi-tape simulator (`class MultiSimulator`) -/

/-- The write loop of `MultiSimulator::step`: for each tape index, write
the transition's write symbol on that tape. -/
def multiWriteAll (mt : MultiTape) (ws : List Char) : MultiTape :=
  (List.range mt.num_tapes).foldl
    (fun acc i =>
      { acc with tapes := acc.tapes.set i ((acc.tapes.getD i defaultTape).write (ws.getD i ' ')) })
    mt

/-- The move loop of `MultiSimulator::step`: for each tape index, apply
the transition's movement on that tape. -/
def multiMoveAll (mt : MultiTape) (mvs : List Movement) : MultiTape :=
  (List.range mt.num_tapes).foldl
    (fun acc i =>
      let moved := match mvs.getD i Movement.STAY with
        | .LEFT => (acc.tapes.getD i defaultTape).move_left
        | .RIGHT => (acc.tapes.getD i defaultTape).move_right
        | .STAY => acc.tapes.getD i defaultTape
      { acc with tapes := acc.tapes.set i moved })
    mt

/-- Model of `MultiSimulator::step`: read all tapes, look up the transition for
the symbol vector, apply all writes, then all moves, change state, bump
the step counter. -/
def multiStepFn (m : MultiTuringMachine) (c : MultiConfiguration) :
    Option MultiConfiguration :=
  match m.get_transition c.current_state c.tapes.read_all with
  | none => none
  | some t =>
    some { current_state := t.to_state,
           tapes := multiMoveAll (multiWriteAll c.tapes t.write_symbols) t.movements,
           step_count := c.step_count + 1 }

/-- Observable state of a finished multi-tape simulation. -/
structure MultiSimOutcome where
  result : SimulationResult
  final : MultiConfiguration
  visited : List String
  trace : List MultiConfiguration
deriving DecidableEq

/-- The main loop of `MultiSimulator::simulate`, with the same check
order as the single-tape loop. -/
def multiSimLoop (m : MultiTuringMachine) (max_steps : Nat) (enable_trace : Bool) :
    Nat → List String → List MultiConfiguration → MultiConfiguration →
    Option MultiSimOutcome
  | 0, _, _, _ => none
  | fuel + 1, visited, trace, c =>
    if 0 < max_steps ∧ max_steps ≤ c.step_count then
      some ⟨.INFINITE, c, visited, trace⟩
    else if m.is_accept_state c.current_state then
      some ⟨.ACCEPTED, c, visited, trace⟩
    else if (m.get_transition c.current_state c.tapes.read_all).isNone then
      some ⟨.REJECTED, c, visited, trace⟩
    else
      match multiStepFn m c with
      | none => some ⟨.ERROR, c, visited, trace⟩
      | some c2 =>
        if c2.to_compact_string ∈ visited then
          some ⟨.INFINITE, c2, visited, trace⟩
        else
          multiSimLoop m max_steps enable_trace fuel
            (c2.to_compact_string :: visited)
            (if enable_trace then trace ++ [c2] else trace) c2

/-- Model of `MultiSimulator::reset` result: a fresh `MultiConfiguration` built
from the machine's initial state, tape count, the input word and the
blank symbol (reachable only with `num_tapes ≥ 1`, enforced by the
`is_valid` precondition). -/
def initialMultiConfiguration (m : MultiTuringMachine) (w : String) : MultiConfiguration :=
  { current_state := m.initial_state,
    tapes := ⟨tapeFromWord w m.blank_symbol ::
              List.replicate (m.num_tapes - 1) ⟨[], 0, m.blank_symbol⟩, m.num_tapes⟩,
    step_count := 0 }

/-- Model of `MultiSimulator::simulate`: same precondition checks and loop shape
as the single-tape `simulate`. -/
def multiSimulate (m : MultiTuringMachine) (w : String) (enable_trace : Bool)
    (max_steps fuel : Nat) : Option MultiSimOutcome :=
  if ¬ m.is_valid then some ⟨.ERROR, initialMultiConfiguration m w, [], []⟩
  else if ¬ m.is_valid_input_word w then
    some ⟨.ERROR, initialMultiConfiguration m w, [], []⟩
  else
    let c0 := initialMultiConfiguration m w
    multiSimLoop m max_steps enable_trace fuel [c0.to_compact_string]
      (if enable_trace then [c0] else []) c0

/-! ## The per-word CLI processing (`main.cpp`) -/

/-- The whitespace class of `std::isspace` in the default locale. -/
def isSpaceChar (c : Char) : Bool :=
  c = ' ' ∨ c = '\t' ∨ c = '\n' ∨ c = '\r' ∨ c = '\x0b' ∨ c = '\x0c'

/-- Model of `strip_spaces` in `main.cpp`: drop every whitespace character. -/
def strip_spaces (s : String) : String :=
  ⟨s.data.filter (fun c => !isSpaceChar c)⟩

/-- Model of `word_in_alphabet` in `main.cpp`: every character of the word is an
input symbol of the machine. -/
def word_in_alphabet (w : String) (m : TuringMachine) : Bool :=
  w.data.all (fun c => m.is_input_symbol c)

/-- What the program emits and does for one input line: the result token
written to stdout, whether the out-of-alphabet diagnostic went to stderr,
and whether the simulator was invoked at all. -/
structure WordAction where
  result_line : String
  diagnostic : Bool
  simulated : Bool
deriving DecidableEq

/-- The per-word branch of `main` (single-tape machine): strip spaces,
check the alphabet — an invalid word prints `REJECT` in both modes and is
never simulated (strict mode only adds a stderr diagnostic) — otherwise
simulate and print the result token. -/
def process_word (m : TuringMachine) (strict trace : Bool) (max_steps fuel : Nat)
    (line : String) : WordAction :=
  let word := strip_spaces line
  if ¬ word_in_alphabet word m then
    if strict then ⟨"REJECT", true, false⟩
    else ⟨"REJECT", false, false⟩
  else
    match simulate m word trace max_steps fuel with
    | some o => ⟨result_to_string o.result, false, true⟩
    | none => ⟨"", false, true⟩

/-! ## The single-tape definition-file loader (`Parser.cpp`) -/

/-- Model of `Parser::trim`: strip leading and trailing whitespace. -/
def trimLine (s : String) : String :=
  ⟨((s.data.dropWhile isSpaceChar).reverse.dropWhile isSpaceChar).reverse⟩

/-- Accumulator pass behind `Parser::split`. -/
def splitWsAux : List Char → List Char → List String
  | acc, [] => if acc.isEmpty then [] else [⟨acc.reverse⟩]
  | acc, c :: rest =>
    if isSpaceChar c then
      if acc.isEmpty then splitWsAux [] rest
      else ⟨acc.reverse⟩ :: splitWsAux [] rest
    else splitWsAux (c :: acc) rest

/-- Model of `Parser::split`: whitespace-separated tokens. -/
def splitWs (s : String) : List String := splitWsAux [] s.data

/-- Model of `Parser::is_comment`. -/
def is_comment (line : String) : Bool :=
  match (trimLine line).data with
  | [] => false
  | c :: _ => c = '#'

/-- Model of `Parser::is_empty_line`. -/
def is_empty_line (line : String) : Bool := (trimLine line).data.isEmpty

/-- Model of `Parser::string_to_char`: one character, or the aliases
`espacio` / `space` for a blank space; anything else throws. -/
def string_to_char (s : String) : Except String Char :=
  match s.data with
  | [] => .error "Simbolo vacio"
  | [c] => .ok c
  | _ =>
    if s = "espacio" ∨ s = "space" then .ok ' '
    else .error "Simbolo invalido (debe ser un solo caracter)"

/-- Model of `Parser::parse_transition`: exactly five tokens
`from read to write move`. -/
def parse_transition (line : String) : Except String Transition :=
  match splitWs line with
  | [t0, t1, t2, t3, t4] => do
    let read_symbol ← string_to_char t1
    let write_symbol ← string_to_char t3
    let mc ← string_to_char t4
    let movement ← char_to_movement mc
    return ⟨t0, read_symbol, t2, write_symbol, movement⟩
  | _ => .error "Transicion debe tener 5 elementos"

/-- The state-section fold of `Parser::load_from_stream`. -/
def addStatesList (m : TuringMachine) : List String → Except String TuringMachine
  | [] => .ok m
  | s :: rest => do addStatesList (← m.add_state s) rest

/-- The input-alphabet fold of `Parser::load_from_stream`. -/
def addInputSymbolsList (m : TuringMachine) : List String → Except String TuringMachine
  | [] => .ok m
  | s :: rest => do addInputSymbolsList (← m.add_input_symbol (← string_to_char s)) rest

/-- The tape-alphabet fold of `Parser::load_from_stream`. -/
def addTapeSymbolsList (m : TuringMachine) : List String → Except String TuringMachine
  | [] => .ok m
  | s :: rest => do addTapeSymbolsList (m.add_tape_symbol (← string_to_char s)) rest

/-- The accept-state fold of `Parser::load_from_stream`. -/
def addAcceptStatesList (m : TuringMachine) : List String → Except String TuringMachine
  | [] => .ok m
  | s :: rest => do addAcceptStatesList (← m.add_accept_state s) rest

/-- The line loop of `Parser::load_from_stream`: sections are
0 = states, 1 = input alphabet, 2 = tape alphabet, 3 = initial state,
4 = blank symbol, 5 = accept states, ≥ 6 = transitions; comments and
blank lines are skipped.  Returns the machine and the section counter. -/
def load_sections (m : TuringMachine) (section_idx : Nat) :
    List String → Except String (TuringMachine × Nat)
  | [] => .ok (m, section_idx)
  | line :: rest =>
    if is_comment line ∨ is_empty_line line then load_sections m section_idx rest
    else
      let l := trimLine line
      match section_idx with
      | 0 => do
        let tokens := splitWs l
        if tokens.isEmpty then throw "Debe haber al menos un estado"
        let m1 ← addStatesList m tokens
        load_sections m1 1 rest
      | 1 => do
        let m1 ← addInputSymbolsList m (splitWs l)
        load_sections m1 2 rest
      | 2 => do
        let m1 ← addTapeSymbolsList m (splitWs l)
        load_sections m1 3 rest
      | 3 => do
        match splitWs l with
        | [s] => do
          let m1 ← m.set_initial_state s
          load_sections m1 4 rest
        | _ => throw "Debe haber exactamente un estado inicial"
      | 4 => do
        match splitWs l with
        | [s] => do
          let blank ← string_to_char s
          load_sections (m.set_blank_symbol blank) 5 rest
        | _ => throw "Debe haber exactamente un simbolo blanco"
      | 5 => do
        let m1 ← addAcceptStatesList m (splitWs l)
        load_sections m1 6 rest
      | _ => do
        let t ← parse_transition l
        let m1 ← m.add_transition t
        load_sections m1 section_idx rest

/-- Model of `Parser::load_from_stream` over the file's lines: clear the machine,
run the section loop, require all six header sections, then require
`is_valid`. -/
def load_from_stream (lines : List String) (m : TuringMachine) :
    Except String TuringMachine := do
  let (m1, s) ← load_sections m.clear 0 lines
  if s < 6 then throw "Archivo incompleto: faltan secciones obligatorias"
  if ¬ m1.is_valid then throw "La maquina de Turing resultante no es valida"
  return m1

/-! ## Builder-operation sequences (for the blank-in-Gamma invariant) -/

/-- One public builder call on a `TuringMachine`. -/
inductive BuilderOp where
  | add_state (s : String)
  | add_input_symbol (c : Char)
  | add_tape_symbol (c : Char)
  | set_initial_state (s : String)
  | add_accept_state (s : String)
  | set_blank_symbol (c : Char)
  | add_transition (t : Transition)
  | clear
deriving DecidableEq

/-- Apply one builder call (throwing calls return `.error`). -/
def applyOp (m : TuringMachine) : BuilderOp → Except String TuringMachine
  | .add_state s => m.add_state s
  | .add_input_symbol c => m.add_input_symbol c
  | .add_tape_symbol c => .ok (m.add_tape_symbol c)
  | .set_initial_state s => m.set_initial_state s
  | .add_accept_state s => m.add_accept_state s
  | .set_blank_symbol c => .ok (m.set_blank_symbol c)
  | .add_transition t => m.add_transition t
  | .clear => .ok m.clear

/-- Run a sequence of builder calls. -/
def runBuilder (m : TuringMachine) : List BuilderOp → Except String TuringMachine
  | [] => .ok m
  | op :: rest =>
    match applyOp m op with
    | .error e => .error e
    | .ok m1 => runBuilder m1 rest

/-- One public builder call on a `MultiTuringMachine`. -/
inductive MultiBuilderOp where
  | add_state (s : String)
  | add_input_symbol (c : Char)
  | add_tape_symbol (c : Char)
  | set_initial_state (s : String)
  | add_accept_state (s : String)
  | set_blank_symbol (c : Char)
  | set_num_tapes (n : Nat)
  | add_transition (t : MultiTransition)
  | clear
deriving DecidableEq

/-- Apply one multi-tape builder call. -/
def applyMultiOp (m : MultiTuringMachine) : MultiBuilderOp → Except String MultiTuringMachine
  | .add_state s => m.add_state s
  | .add_input_symbol c => m.add_input_symbol c
  | .add_tape_symbol c => .ok (m.add_tape_symbol c)
  | .set_initial_state s => m.set_initial_state s
  | .add_accept_state s => m.add_accept_state s
  | .set_blank_symbol c => .ok (m.set_blank_symbol c)
  | .set_num_tapes n => m.set_num_tapes n
  | .add_transition t => m.add_transition t
  | .clear => .ok m.clear

/-- Run a sequence of multi-tape builder calls. -/
def runMultiBuilder (m : MultiTuringMachine) : List MultiBuilderOp → Except String MultiTuringMachine
  | [] => .ok m
  | op :: rest =>
    match applyMultiOp m op with
    | .error e => .error e
    | .ok m1 => runMultiBuilder m1 rest

/-! ## Concrete example inputs used by counterexamples and witnesses -/

/-- A machine that accepts the word `a` after exactly one step:
`q0` reads `a`, writes `a`, moves right, enters the accept state `qa`. -/
def oneStepAcceptMachine : TuringMachine :=
  { states := ["q0", "qa"], input_alphabet := ['a'], tape_alphabet := ['.', 'a'],
    initial_state := "q0", accept_states := ["qa"], blank_symbol := '.',
    transitions := [(("q0", 'a'), ⟨"q0", 'a', "qa", 'a', .RIGHT⟩)] }

/-- A machine with no accept states that walks right over blanks forever:
every configuration has a fresh fingerprint. -/
def rightMoverMachine : TuringMachine :=
  { states := ["q0"], input_alphabet := ['a'], tape_alphabet := ['.', 'a'],
    initial_state := "q0", accept_states := [], blank_symbol := '.',
    transitions := [(("q0", '.'), ⟨"q0", '.', "q0", '.', .RIGHT⟩)] }

/-- A configuration whose state name contains the fingerprint separator. -/
def barStateConfiguration : Configuration :=
  { current_state := "q|0", tape := ⟨[(0, 'a')], 0, '.'⟩, step_count := 0 }

/-- A configuration with a different state (and different tape content)
that nevertheless produces the same fingerprint string. -/
def plainStateConfiguration : Configuration :=
  { current_state := "q", tape := ⟨[(0, '0'), (1, '|'), (2, 'a')], 0, '.'⟩, step_count := 0 }

/-- A machine definition file whose declared initial state `qX` does not
appear in the states section. -/
def fileInitialNotDeclared : List String :=
  ["# estados", "q0 q1", "a", "a .", "qX", ".", "q1", "q0 a q1 a R"]

/-- A machine definition file whose blank symbol `_` does not appear in
the declared tape alphabet. -/
def fileBlankNotDeclared : List String :=
  ["q0 q1", "a", "a", "q0", "_", "q1", "q0 a q1 a R"]

/-- A two-tape machine that accepts `a` in one step. -/
def twoTapeMachine : MultiTuringMachine :=
  { states := ["p0", "pa"], input_alphabet := ['a'], tape_alphabet := ['.', 'a'],
    initial_state := "p0", accept_states := ["pa"], blank_symbol := '.',
    num_tapes := 2,
    transitions := [(("p0", ['a', '.']), ⟨"p0", ['a', '.'], "pa", ['a', 'a'], [.RIGHT, .STAY]⟩)] }

/-- A one-tape `MultiTape` holding a single blank tape. -/
def exampleMultiTape : MultiTape := ⟨[⟨[], 0, '.'⟩], 1⟩

/-- The outcome of running `oneStepAcceptMachine` on the word `a` with a
sufficient budget: accepted after one step. -/
def acceptOutcome : SimOutcome :=
  ⟨.ACCEPTED, ⟨"qa", ⟨[(0, 'a')], 1, '.'⟩, 1⟩, ["qa|1|a", "q0|0|a"], []⟩

/-- A tape with two stored cells and one interior gap. -/
def exampleContentTape : Tape := ⟨[(0, 'a'), (2, 'b')], 0, '.'⟩

/-- A builder sequence that redeclares the blank symbol and clears. -/
def builderOpsEx : List BuilderOp :=
  [.set_blank_symbol 'x', .clear, .add_state "q", .set_blank_symbol '.']

/-- The machine produced by `builderOpsEx` from `TuringMachine.new '.'`. -/
def builderResultEx : TuringMachine :=
  ⟨["q"], [], ['.', 'x'], "", [], '.', []⟩

/-- The machine produced by `MultiTuringMachine.new 2 '.'`. -/
def multiNewEx : MultiTuringMachine := ⟨[], [], ['.'], "", [], '.', 2, []⟩

/-- A multi-tape builder sequence touching the tape count and blank. -/
def multiBuilderOpsEx : List MultiBuilderOp :=
  [.set_num_tapes 3, .set_blank_symbol ',']

/-- The machine produced by `multiBuilderOpsEx` from `multiNewEx`. -/
def multiBuilderResultEx : MultiTuringMachine :=
  ⟨[], [], [',', '.'], "", [], ',', 3, []⟩

/-- The machine produced by `set_initial_state "qZ"` on a fresh machine. -/
def initialInsertEx : TuringMachine :=
  ⟨["qZ"], [], ['.'], "qZ", [], '.', []⟩

/-- Decidable equality for `Except` results, so that concrete builder
and loader outcomes can be checked by `decide`. -/
instance exceptDecEq {ε α : Type} [DecidableEq ε] [DecidableEq α] :
    DecidableEq (Except ε α) := fun x y =>
  match x, y with
  | .ok a, .ok b =>
    if h : a = b then .isTrue (by rw [h])
    else .isFalse (by intro he; injection he; exact h (by assumption))
  | .error a, .error b =>
    if h : a = b then .isTrue (by rw [h])
    else .isFalse (by intro he; injection he; exact h (by assumption))
  | .ok _, .error _ => .isFalse (by intro he; exact Except.noConfusion he)
  | .error _, .ok _ => .isFalse (by intro he; exact Except.noConfusion he)

end MTSim

namespace MTSim

/-! ## Shared helper lemmas -/

theorem mem_setInsert_self {α : Type} [DecidableEq α] (a : α) (l : List α) :
    a ∈ setInsert a l := by
  by_cases h : a ∈ l <;> simp [setInsert, h]

theorem mem_setInsert_of_mem {α : Type} [DecidableEq α] {a b : α} {l : List α}
    (h : b ∈ l) : b ∈ setInsert a l := by
  by_cases ha : a ∈ l <;> simp [setInsert, ha, h]

theorem cellsFind_insert_self (p : Int) (s : Char) (l : List (Int × Char)) :
    cellsFind p (cellsInsert p s l) = some s := by
  induction l with
  | nil => simp [cellsInsert, cellsFind]
  | cons kv rest ih =>
    by_cases h : kv.1 = p
    · simp [cellsInsert, cellsFind, h]
    · simp [cellsInsert, cellsFind, h, ih]

theorem cellKeys_cons (kv : Int × Char) (rest : List (Int × Char)) :
    cellKeys (kv :: rest) = kv.1 :: cellKeys rest := rfl

theorem cellsFind_eq_none_iff (p : Int) (l : List (Int × Char)) :
    cellsFind p l = none ↔ p ∉ cellKeys l := by
  induction l with
  | nil => simp [cellsFind, cellKeys]
  | cons kv rest ih =>
    obtain ⟨k, v⟩ := kv
    by_cases h : k = p
    · subst h
      simp [cellsFind, cellKeys_cons]
    · simp only [cellsFind, if_neg h, cellKeys_cons, List.mem_cons, ih]
      constructor
      · intro hn hor
        rcases hor with he | hm
        · exact h he.symm
        · exact hn hm
      · intro hn hm
        exact hn (Or.inr hm)

theorem cellsErase_of_not_mem {p : Int} {l : List (Int × Char)}
    (h : p ∉ cellKeys l) : cellsErase p l = l := by
  induction l with
  | nil => rfl
  | cons kv rest ih =>
    obtain ⟨k, v⟩ := kv
    rw [cellKeys_cons, List.mem_cons] at h
    push_neg at h
    have hk : ¬ k = p := fun he => h.1 he.symm
    simp only [cellsErase, if_neg hk, ih h.2]

theorem cellsFind_erase_self {p : Int} {l : List (Int × Char)}
    (hnd : (cellKeys l).Nodup) : cellsFind p (cellsErase p l) = none := by
  induction l with
  | nil => rfl
  | cons kv rest ih =>
    obtain ⟨k, v⟩ := kv
    rw [cellKeys_cons, List.nodup_cons] at hnd
    by_cases h : k = p
    · subst h
      simp only [cellsErase, if_pos rfl]
      exact (cellsFind_eq_none_iff _ _).mpr hnd.1
    · simp only [cellsErase, if_neg h, cellsFind, if_neg h]
      exact ih hnd.2

theorem cellsErase_insert {p : Int} (s : Char) {l : List (Int × Char)}
    (h : p ∉ cellKeys l) : cellsErase p (cellsInsert p s l) = l := by
  induction l with
  | nil => simp [cellsInsert, cellsErase]
  | cons kv rest ih =>
    obtain ⟨k, v⟩ := kv
    rw [cellKeys_cons, List.mem_cons] at h
    push_neg at h
    have hk : ¬ k = p := fun he => h.1 he.symm
    simp [cellsInsert, cellsErase, hk, ih h.2]

theorem stepFn_eq_none_iff (m : TuringMachine) (c : Configuration) :
    stepFn m c = none ↔ m.get_transition c.current_state c.tape.read = none := by
  unfold stepFn
  cases m.get_transition c.current_state c.tape.read <;> simp

theorem multiStepFn_eq_none_iff (m : MultiTuringMachine) (c : MultiConfiguration) :
    multiStepFn m c = none ↔ m.get_transition c.current_state c.tapes.read_all = none := by
  unfold multiStepFn
  cases m.get_transition c.current_state c.tapes.read_all <;> simp

/-! ## Claim C1 -/

/-- Claim C1: each iteration of the simulation main loop (single- and
multi-tape) checks, in order, the budget, then acceptance, then
halt-rejection, then steps, and only then consults the visited set.
Consequently (i) at the step cap an accepting configuration still yields
INFINITE, (ii) an accepting configuration with no outgoing transition
yields ACCEPTED and not REJECTED, and (iii) a rejecting configuration is
reported REJECTED even when its own fingerprint is already in the
visited set, so the pre-inserted initial fingerprint never flags the
initial configuration against itself. -/
theorem claim1_check_order :
    (∀ (m : TuringMachine) (N fuel : Nat) (et : Bool) (v : List String)
       (tr : List Configuration) (c : Configuration),
       0 < N → N ≤ c.step_count → m.is_accept_state c.current_state = true →
       simLoop m N et (fuel + 1) v tr c = some ⟨.INFINITE, c, v, tr⟩) ∧
    (∀ (m : TuringMachine) (N fuel : Nat) (et : Bool) (v : List String)
       (tr : List Configuration) (c : Configuration),
       ¬ (0 < N ∧ N ≤ c.step_count) → m.is_accept_state c.current_state = true →
       m.get_transition c.current_state c.tape.read = none →
       simLoop m N et (fuel + 1) v tr c = some ⟨.ACCEPTED, c, v, tr⟩) ∧
    (∀ (m : TuringMachine) (N fuel : Nat) (et : Bool) (v : List String)
       (tr : List Configuration) (c : Configuration),
       ¬ (0 < N ∧ N ≤ c.step_count) → m.is_accept_state c.current_state = false →
       m.get_transition c.current_state c.tape.read = none →
       c.to_compact_string ∈ v →
       simLoop m N et (fuel + 1) v tr c = some ⟨.REJECTED, c, v, tr⟩) ∧
    (∀ (m : MultiTuringMachine) (N fuel : Nat) (et : Bool) (v : List String)
       (tr : List MultiConfiguration) (c : MultiConfiguration),
       0 < N → N ≤ c.step_count → m.is_accept_state c.current_state = true →
       multiSimLoop m N et (fuel + 1) v tr c = some ⟨.INFINITE, c, v, tr⟩) ∧
    (∀ (m : MultiTuringMachine) (N fuel : Nat) (et : Bool) (v : List String)
       (tr : List MultiConfiguration) (c : MultiConfiguration),
       ¬ (0 < N ∧ N ≤ c.step_count) → m.is_accept_state c.current_state = true →
       m.get_transition c.current_state c.tapes.read_all = none →
       multiSimLoop m N et (fuel + 1) v tr c = some ⟨.ACCEPTED, c, v, tr⟩) ∧
    (∀ (m : MultiTuringMachine) (N fuel : Nat) (et : Bool) (v : List String)
       (tr : List MultiConfiguration) (c : MultiConfiguration),
       ¬ (0 < N ∧ N ≤ c.step_count) → m.is_accept_state c.current_state = false →
       m.get_transition c.current_state c.tapes.read_all = none →
       c.to_compact_string ∈ v →
       multiSimLoop m N et (fuel + 1) v tr c = some ⟨.REJECTED, c, v, tr⟩) := by
  refine ⟨?_, ?_, ?_, ?_, ?_, ?_⟩
  · intro m N fuel et v tr c h1 h2 _
    simp only [simLoop]
    rw [if_pos ⟨h1, h2⟩]
  · intro m N fuel et v tr c hb ha _
    simp only [simLoop]
    rw [if_neg hb, if_pos ha]
  · intro m N fuel et v tr c hb ha ht _
    simp only [simLoop]
    rw [if_neg hb, if_neg (by simp [ha]), if_pos (by simp [ht])]
  · intro m N fuel et v tr c h1 h2 _
    simp only [multiSimLoop]
    rw [if_pos ⟨h1, h2⟩]
  · intro m N fuel et v tr c hb ha _
    simp only [multiSimLoop]
    rw [if_neg hb, if_pos ha]
  · intro m N fuel et v tr c hb ha ht _
    simp only [multiSimLoop]
    rw [if_neg hb, if_neg (by simp [ha]), if_pos (by simp [ht])]

/-- Witness for C1: the six conclusions instantiated on concrete
machines and configurations. -/
theorem claim1_check_order_witness :
    simLoop oneStepAcceptMachine 1 false 3 ["x"] [] ⟨"qa", ⟨[], 0, '.'⟩, 1⟩ =
      some ⟨.INFINITE, ⟨"qa", ⟨[], 0, '.'⟩, 1⟩, ["x"], []⟩ ∧
    simLoop oneStepAcceptMachine 0 false 3 ["x"] [] ⟨"qa", ⟨[], 0, '.'⟩, 0⟩ =
      some ⟨.ACCEPTED, ⟨"qa", ⟨[], 0, '.'⟩, 0⟩, ["x"], []⟩ ∧
    simLoop rightMoverMachine 0 false 3 ["q0|0|a"] [] ⟨"q0", ⟨[(0, 'a')], 0, '.'⟩, 0⟩ =
      some ⟨.REJECTED, ⟨"q0", ⟨[(0, 'a')], 0, '.'⟩, 0⟩, ["q0|0|a"], []⟩ ∧
    multiSimLoop twoTapeMachine 1 false 3 ["x"] [] ⟨"pa", ⟨[⟨[], 0, '.'⟩, ⟨[], 0, '.'⟩], 2⟩, 1⟩ =
      some ⟨.INFINITE, ⟨"pa", ⟨[⟨[], 0, '.'⟩, ⟨[], 0, '.'⟩], 2⟩, 1⟩, ["x"], []⟩ ∧
    multiSimLoop twoTapeMachine 0 false 3 ["x"] [] ⟨"pa", ⟨[⟨[], 0, '.'⟩, ⟨[], 0, '.'⟩], 2⟩, 0⟩ =
      some ⟨.ACCEPTED, ⟨"pa", ⟨[⟨[], 0, '.'⟩, ⟨[], 0, '.'⟩], 2⟩, 0⟩, ["x"], []⟩ ∧
    multiSimLoop twoTapeMachine 0 false 3 ["p0|0,0||"] [] ⟨"p0", ⟨[⟨[], 0, '.'⟩, ⟨[], 0, '.'⟩], 2⟩, 0⟩ =
      some ⟨.REJECTED, ⟨"p0", ⟨[⟨[], 0, '.'⟩, ⟨[], 0, '.'⟩], 2⟩, 0⟩, ["p0|0,0||"], []⟩ :=
  ⟨claim1_check_order.1 oneStepAcceptMachine 1 2 false ["x"] [] _
      (by decide) (by decide) (by decide),
   claim1_check_order.2.1 oneStepAcceptMachine 0 2 false ["x"] [] _
      (by decide) (by decide) (by decide),
   claim1_check_order.2.2.1 rightMoverMachine 0 2 false ["q0|0|a"] [] _
      (by decide) (by decide) (by decide) (by decide),
   claim1_check_order.2.2.2.1 twoTapeMachine 1 2 false ["x"] [] _
      (by decide) (by decide) (by decide),
   claim1_check_order.2.2.2.2.1 twoTapeMachine 0 2 false ["x"] [] _
      (by decide) (by decide) (by decide),
   claim1_check_order.2.2.2.2.2 twoTapeMachine 0 2 false ["p0|0,0||"] [] _
      (by decide) (by decide) (by decide) (by decide)⟩

/-! ## Claim C5 -/

/-- Counterexample for C5 as frozen: on the word `b` (whose symbol is
outside the input alphabet) in strict mode, the program prints `REJECT`
(with a stderr diagnostic), not `ERROR`. -/
theorem claim5_counterexample :
    process_word oneStepAcceptMachine true false 1000 10 "b" =
      ⟨"REJECT", true, false⟩ ∧
    ("REJECT" : String) ≠ "ERROR" := by
  constructor
  · decide
  · decide

/-- Claim C5 (amended): for every word containing a symbol outside the
input alphabet, the per-word result emitted by the program is `REJECT`
in both modes; strict mode additionally writes a diagnostic to stderr;
and in both modes no simulation step is executed on that word. -/
theorem claim5_invalid_word_rejected :
    ∀ (m : TuringMachine) (strict trace : Bool) (max_steps fuel : Nat) (line : String),
      word_in_alphabet (strip_spaces line) m = false →
      process_word m strict trace max_steps fuel line = ⟨"REJECT", strict, false⟩ := by
  intro m strict trace max_steps fuel line h
  unfold process_word
  rw [if_pos (by simp [h])]
  cases strict <;> rfl

/-- Witness for C5: the amended conclusion instantiated on the word `b`
against `oneStepAcceptMachine`, in both modes. -/
theorem claim5_invalid_word_rejected_witness :
    word_in_alphabet (strip_spaces "b") oneStepAcceptMachine = false ∧
    process_word oneStepAcceptMachine false false 5 5 "b" = ⟨"REJECT", false, false⟩ ∧
    process_word oneStepAcceptMachine true false 5 5 "b" = ⟨"REJECT", true, false⟩ :=
  ⟨by decide,
   claim5_invalid_word_rejected oneStepAcceptMachine false false 5 5 "b" (by decide),
   claim5_invalid_word_rejected oneStepAcceptMachine true false 5 5 "b" (by decide)⟩

/-! ## Claim C7 -/

/-- Claim C7: on any tape (std::map keys are unique, hence the Nodup
hypothesis), writing a symbol and reading back returns that symbol;
writing the blank leaves the head cell absent from the sparse map; and
writing a symbol then the blank at a previously absent position restores
the tape exactly, so the content is as if the position had never been
written. -/
theorem claim7_tape_round_trip :
    ∀ (t : Tape) (s : Char), (cellKeys t.cells).Nodup →
      (t.write s).read = s ∧
      cellsFind t.head_position (t.write t.blank_symbol).cells = none ∧
      (cellsFind t.head_position t.cells = none →
        (t.write s).write t.blank_symbol = t ∧
        ((t.write s).write t.blank_symbol).get_content = t.get_content) := by
  intro t s hnd
  refine ⟨?_, ?_, ?_⟩
  · by_cases h : s = t.blank_symbol
    · subst h
      simp [Tape.write, Tape.read, cellsFind_erase_self hnd]
    · simp [Tape.write, Tape.read, h, cellsFind_insert_self]
  · simp [Tape.write, cellsFind_erase_self hnd]
  · intro habs
    have hkeys : t.head_position ∉ cellKeys t.cells :=
      (cellsFind_eq_none_iff _ _).mp habs
    have heq : (t.write s).write t.blank_symbol = t := by
      by_cases h : s = t.blank_symbol
      · subst h
        simp [Tape.write, cellsErase_of_not_mem hkeys]
      · have hhead : (t.write s).head_position = t.head_position := by
          simp [Tape.write, h]
        have hblank : (t.write s).blank_symbol = t.blank_symbol := by
          simp [Tape.write, h]
        simp [Tape.write, h, cellsErase_insert s hkeys]
    exact ⟨heq, by rw [heq]⟩

/-- Witness for C7: the round-trip facts on a one-cell tape with a fresh
head position. -/
theorem claim7_tape_round_trip_witness :
    (cellKeys (⟨[(1, 'a')], 0, '.'⟩ : Tape).cells).Nodup ∧
    ((⟨[(1, 'a')], 0, '.'⟩ : Tape).write 'b').read = 'b' ∧
    cellsFind 0 ((⟨[(1, 'a')], 0, '.'⟩ : Tape).write '.').cells = none ∧
    (cellsFind 0 (⟨[(1, 'a')], 0, '.'⟩ : Tape).cells = none →
      ((⟨[(1, 'a')], 0, '.'⟩ : Tape).write 'b').write '.' = ⟨[(1, 'a')], 0, '.'⟩ ∧
      (((⟨[(1, 'a')], 0, '.'⟩ : Tape).write 'b').write '.').get_content =
        (⟨[(1, 'a')], 0, '.'⟩ : Tape).get_content) :=
  ⟨by decide, claim7_tape_round_trip ⟨[(1, 'a')], 0, '.'⟩ 'b' (by decide)⟩


/-! ## Claim C6 -/

/-- Counterexample for C6 as frozen: both defective files load
successfully.  `fileInitialNotDeclared` declares initial state `qX`
outside its states section, and `fileBlankNotDeclared` declares blank
`_` outside its tape-alphabet section, yet `load_from_stream` returns
success (no ValidationError) for both. -/
theorem claim6_counterexample :
    (load_from_stream fileInitialNotDeclared (TuringMachine.new '.')).isOk = true ∧
    (load_from_stream fileBlankNotDeclared (TuringMachine.new '.')).isOk = true ∧
    "qX" ∉ splitWs "q0 q1" ∧
    '_' ∉ (['a'] : List Char) := by
  refine ⟨by decide, by decide, by decide, by decide⟩

/-- Claim C6 (amended): such files cannot fail validation for these
reasons, because `set_initial_state` auto-inserts the initial state into
the state set and `set_blank_symbol` keeps the blank symbol in the tape
alphabet, so the corresponding `is_valid` checks always pass. -/
theorem claim6_auto_insert :
    (∀ (m m1 : TuringMachine) (s : String),
       m.set_initial_state s = .ok m1 → m1.initial_state ∈ m1.states) ∧
    (∀ (m : TuringMachine) (c : Char),
       m.blank_symbol ∈ m.tape_alphabet →
       (m.set_blank_symbol c).blank_symbol ∈ (m.set_blank_symbol c).tape_alphabet) := by
  constructor
  · intro m m1 s h
    simp only [TuringMachine.set_initial_state] at h
    split at h
    · exact absurd h (by simp)
    · injection h with h1
      subst h1
      exact mem_setInsert_self s m.states
  · intro m c hm
    simp only [TuringMachine.set_blank_symbol]
    split
    · exact hm
    · exact mem_setInsert_self c m.tape_alphabet

/-- Witness for C6: the amended facts instantiated on a fresh machine. -/
theorem claim6_auto_insert_witness :
    TuringMachine.set_initial_state (TuringMachine.new '.') "qZ" = .ok initialInsertEx ∧
    initialInsertEx.initial_state ∈ initialInsertEx.states ∧
    (TuringMachine.new '.').blank_symbol ∈ (TuringMachine.new '.').tape_alphabet ∧
    ((TuringMachine.new '.').set_blank_symbol 'x').blank_symbol ∈
      ((TuringMachine.new '.').set_blank_symbol 'x').tape_alphabet :=
  ⟨by decide,
   claim6_auto_insert.1 (TuringMachine.new '.') initialInsertEx "qZ" (by decide),
   by decide,
   claim6_auto_insert.2 (TuringMachine.new '.') 'x' (by decide)⟩

/-! ## Claim C9 -/

/-- Claim C9: every per-tape MultiTape operation called with an index at
or beyond the tape count throws `std::out_of_range` without touching
storage, and for every index below the tape count the operation acts on
exactly that tape. -/
theorem claim9_index_guard :
    ∀ (mt : MultiTape) (i : Nat) (s : Char) (p : Int) (mv : Movement),
      (mt.num_tapes ≤ i →
        mt.read i = .error ("Indice de cinta invalido: " ++ natStr i) ∧
        mt.write i s = .error ("Indice de cinta invalido: " ++ natStr i) ∧
        mt.move i mv = .error ("Indice de cinta invalido: " ++ natStr i) ∧
        mt.get_head_position i = .error ("Indice de cinta invalido: " ++ natStr i) ∧
        mt.set_head_position i p = .error ("Indice de cinta invalido: " ++ natStr i) ∧
        mt.get_tape_content i = .error ("Indice de cinta invalido: " ++ natStr i) ∧
        mt.get_tape i = .error ("Indice de cinta invalido: " ++ natStr i)) ∧
      (i < mt.num_tapes → mt.tapes.length = mt.num_tapes →
        ∃ tp, mt.tapes[i]? = some tp ∧
          mt.read i = .ok tp.read ∧
          mt.write i s = .ok { mt with tapes := mt.tapes.set i (tp.write s) } ∧
          mt.move i .LEFT = .ok { mt with tapes := mt.tapes.set i tp.move_left } ∧
          mt.move i .RIGHT = .ok { mt with tapes := mt.tapes.set i tp.move_right } ∧
          mt.move i .STAY = .ok { mt with tapes := mt.tapes.set i tp } ∧
          mt.get_head_position i = .ok tp.head_position ∧
          mt.set_head_position i p = .ok { mt with tapes := mt.tapes.set i (tp.set_head_position p) } ∧
          mt.get_tape_content i = .ok tp.get_content ∧
          mt.get_tape i = .ok tp) := by
  intro mt i s p mv
  constructor
  · intro h
    have hv : ¬ (mt.is_valid_tape_index i = true) := by
      simp only [MultiTape.is_valid_tape_index, decide_eq_true_eq]
      omega
    refine ⟨?_, ?_, ?_, ?_, ?_, ?_, ?_⟩ <;>
      simp [MultiTape.read, MultiTape.write, MultiTape.move, MultiTape.get_head_position,
            MultiTape.set_head_position, MultiTape.get_tape_content, MultiTape.get_tape, hv]
  · intro h hlen
    have hv : mt.is_valid_tape_index i = true := by
      simp only [MultiTape.is_valid_tape_index, decide_eq_true_eq]
      exact h
    have hi : i < mt.tapes.length := by omega
    refine ⟨mt.tapes.getD i defaultTape, ?_, ?_, ?_, ?_, ?_, ?_, ?_, ?_, ?_, ?_⟩
    · rw [List.getD_eq_getElem mt.tapes defaultTape hi, List.getElem?_eq_getElem hi]
    · simp [MultiTape.read, hv]
    · simp [MultiTape.write, hv]
    · simp [MultiTape.move, hv]
    · simp [MultiTape.move, hv]
    · simp [MultiTape.move, hv]
    · simp [MultiTape.get_head_position, hv]
    · simp [MultiTape.set_head_position, hv]
    · simp [MultiTape.get_tape_content, hv]
    · simp [MultiTape.get_tape, hv]

/-- Witness for C9: index 5 throws and index 0 reads the blank on a
one-tape `MultiTape`. -/
theorem claim9_index_guard_witness :
    MultiTape.read exampleMultiTape 5 = .error ("Indice de cinta invalido: " ++ natStr 5) ∧
    MultiTape.read exampleMultiTape 0 = .ok '.' := by
  have h5 := (claim9_index_guard exampleMultiTape 5 'a' 0 .LEFT).1 (by decide)
  obtain ⟨tp, htp, hread, _⟩ :=
    (claim9_index_guard exampleMultiTape 0 'a' 0 .LEFT).2 (by decide) (by decide)
  have he : exampleMultiTape.tapes[0]? = some ⟨[], 0, '.'⟩ := by decide
  rw [he] at htp
  have htp2 : tp = ⟨[], 0, '.'⟩ := (Option.some_inj.mp htp).symm
  refine ⟨h5.1, ?_⟩
  rw [hread, htp2]
  decide

/-! ## Claim C10 -/

theorem applyOp_blank_mem {m m1 : TuringMachine}
    (hm : m.blank_symbol ∈ m.tape_alphabet) (op : BuilderOp)
    (h : applyOp m op = .ok m1) : m1.blank_symbol ∈ m1.tape_alphabet := by
  cases op with
  | add_state s =>
    simp only [applyOp, TuringMachine.add_state] at h
    split at h
    · exact absurd h (by simp)
    · injection h with h1
      subst h1
      exact hm
  | add_input_symbol c =>
    simp only [applyOp, TuringMachine.add_input_symbol] at h
    split at h
    · exact absurd h (by simp)
    · injection h with h1
      subst h1
      exact mem_setInsert_of_mem hm
  | add_tape_symbol c =>
    simp only [applyOp, TuringMachine.add_tape_symbol] at h
    injection h with h1
    subst h1
    exact mem_setInsert_of_mem hm
  | set_initial_state s =>
    simp only [applyOp, TuringMachine.set_initial_state] at h
    split at h
    · exact absurd h (by simp)
    · injection h with h1
      subst h1
      exact hm
  | add_accept_state s =>
    simp only [applyOp, TuringMachine.add_accept_state] at h
    split at h
    · exact absurd h (by simp)
    · injection h with h1
      subst h1
      exact hm
  | set_blank_symbol c =>
    simp only [applyOp, TuringMachine.set_blank_symbol] at h
    split at h
    · injection h with h1
      subst h1
      exact hm
    · injection h with h1
      subst h1
      exact mem_setInsert_self c m.tape_alphabet
  | add_transition t =>
    simp only [applyOp, TuringMachine.add_transition] at h
    split at h
    · exact absurd h (by simp)
    · split at h
      · exact absurd h (by simp)
      · split at h
        · exact absurd h (by simp)
        · injection h with h1
          subst h1
          exact mem_setInsert_of_mem (mem_setInsert_of_mem hm)
  | clear =>
    simp only [applyOp, TuringMachine.clear] at h
    injection h with h1
    subst h1
    exact List.mem_singleton.mpr rfl

theorem runBuilder_blank_mem :
    ∀ (ops : List BuilderOp) (m m1 : TuringMachine),
      m.blank_symbol ∈ m.tape_alphabet →
      runBuilder m ops = .ok m1 → m1.blank_symbol ∈ m1.tape_alphabet := by
  intro ops
  induction ops with
  | nil =>
    intro m m1 hm h
    simp only [runBuilder] at h
    injection h with h1
    subst h1
    exact hm
  | cons op rest ih =>
    intro m m1 hm h
    simp only [runBuilder] at h
    cases hop : applyOp m op with
    | error e =>
      rw [hop] at h
      exact absurd h (by simp)
    | ok m2 =>
      rw [hop] at h
      exact ih m2 m1 (applyOp_blank_mem hm op hop) h

theorem add_transition_symbols_blank_mem :
    ∀ (l : List (Char × Char)) (m : MultiTuringMachine),
      m.blank_symbol ∈ m.tape_alphabet →
      (m.add_transition_symbols l).blank_symbol ∈
        (m.add_transition_symbols l).tape_alphabet := by
  intro l
  induction l with
  | nil =>
    intro m hm
    exact hm
  | cons pr rest ih =>
    intro m hm
    obtain ⟨r, w⟩ := pr
    exact ih _ (mem_setInsert_of_mem (mem_setInsert_of_mem hm))

theorem applyMultiOp_blank_mem {m m1 : MultiTuringMachine}
    (hm : m.blank_symbol ∈ m.tape_alphabet) (op : MultiBuilderOp)
    (h : applyMultiOp m op = .ok m1) : m1.blank_symbol ∈ m1.tape_alphabet := by
  cases op with
  | add_state s =>
    simp only [applyMultiOp, MultiTuringMachine.add_state] at h
    split at h
    · exact absurd h (by simp)
    · injection h with h1
      subst h1
      exact hm
  | add_input_symbol c =>
    simp only [applyMultiOp, MultiTuringMachine.add_input_symbol] at h
    split at h
    · exact absurd h (by simp)
    · injection h with h1
      subst h1
      exact mem_setInsert_of_mem hm
  | add_tape_symbol c =>
    simp only [applyMultiOp, MultiTuringMachine.add_tape_symbol] at h
    injection h with h1
    subst h1
    exact mem_setInsert_of_mem hm
  | set_initial_state s =>
    simp only [applyMultiOp, MultiTuringMachine.set_initial_state] at h
    split at h
    · exact absurd h (by simp)
    · injection h with h1
      subst h1
      exact hm
  | add_accept_state s =>
    simp only [applyMultiOp, MultiTuringMachine.add_accept_state] at h
    split at h
    · exact absurd h (by simp)
    · injection h with h1
      subst h1
      exact hm
  | set_blank_symbol c =>
    simp only [applyMultiOp, MultiTuringMachine.set_blank_symbol] at h
    split at h
    · injection h with h1
      subst h1
      exact hm
    · injection h with h1
      subst h1
      exact mem_setInsert_self c m.tape_alphabet
  | set_num_tapes n =>
    simp only [applyMultiOp, MultiTuringMachine.set_num_tapes] at h
    split at h
    · exact absurd h (by simp)
    · injection h with h1
      subst h1
      exact hm
  | add_transition t =>
    simp only [applyMultiOp, MultiTuringMachine.add_transition] at h
    split at h
    · exact absurd h (by simp)
    · split at h
      · exact absurd h (by simp)
      · rename_i m2 heq1
        split at h
        · exact absurd h (by simp)
        · rename_i m3 heq2
          split at h
          · exact absurd h (by simp)
          · split at h
            · exact absurd h (by simp)
            · injection h with h1
              subst h1
              have hm2 : m2.blank_symbol ∈ m2.tape_alphabet := by
                simp only [MultiTuringMachine.add_state] at heq1
                split at heq1
                · exact absurd heq1 (by simp)
                · injection heq1 with h2
                  subst h2
                  exact hm
              have hm3 : m3.blank_symbol ∈ m3.tape_alphabet := by
                simp only [MultiTuringMachine.add_state] at heq2
                split at heq2
                · exact absurd heq2 (by simp)
                · injection heq2 with h2
                  subst h2
                  exact hm2
              exact add_transition_symbols_blank_mem _ _ hm3
  | clear =>
    simp only [applyMultiOp, MultiTuringMachine.clear] at h
    injection h with h1
    subst h1
    exact List.mem_singleton.mpr rfl

theorem runMultiBuilder_blank_mem :
    ∀ (ops : List MultiBuilderOp) (m m1 : MultiTuringMachine),
      m.blank_symbol ∈ m.tape_alphabet →
      runMultiBuilder m ops = .ok m1 → m1.blank_symbol ∈ m1.tape_alphabet := by
  intro ops
  induction ops with
  | nil =>
    intro m m1 hm h
    simp only [runMultiBuilder] at h
    injection h with h1
    subst h1
    exact hm
  | cons op rest ih =>
    intro m m1 hm h
    simp only [runMultiBuilder] at h
    cases hop : applyMultiOp m op with
    | error e =>
      rw [hop] at h
      exact absurd h (by simp)
    | ok m2 =>
      rw [hop] at h
      exact ih m2 m1 (applyMultiOp_blank_mem hm op hop) h

/-- Claim C10: after any sequence of builder operations on a
`TuringMachine` or `MultiTuringMachine` starting from construction —
including blank redeclaration via `set_blank_symbol` and `clear` — the
current blank symbol is a member of the tape alphabet. -/
theorem claim10_blank_in_tape_alphabet :
    (∀ (ops : List BuilderOp) (b : Char) (m : TuringMachine),
       runBuilder (TuringMachine.new b) ops = .ok m →
       m.blank_symbol ∈ m.tape_alphabet) ∧
    (∀ (ops : List MultiBuilderOp) (n : Nat) (b : Char) (m0 m : MultiTuringMachine),
       MultiTuringMachine.new n b = .ok m0 →
       runMultiBuilder m0 ops = .ok m →
       m.blank_symbol ∈ m.tape_alphabet) := by
  constructor
  · intro ops b m h
    exact runBuilder_blank_mem ops (TuringMachine.new b) m (List.mem_singleton.mpr rfl) h
  · intro ops n b m0 m h0 h
    have hm0 : m0.blank_symbol ∈ m0.tape_alphabet := by
      simp only [MultiTuringMachine.new] at h0
      split at h0
      · exact absurd h0 (by simp)
      · injection h0 with h1
        subst h1
        exact List.mem_singleton.mpr rfl
    exact runMultiBuilder_blank_mem ops m0 m hm0 h

/-- Witness for C10: a concrete builder run with blank redeclarations and
a `clear` on each machine kind. -/
theorem claim10_blank_in_tape_alphabet_witness :
    runBuilder (TuringMachine.new '.') builderOpsEx = .ok builderResultEx ∧
    builderResultEx.blank_symbol ∈ builderResultEx.tape_alphabet ∧
    MultiTuringMachine.new 2 '.' = .ok multiNewEx ∧
    runMultiBuilder multiNewEx multiBuilderOpsEx = .ok multiBuilderResultEx ∧
    multiBuilderResultEx.blank_symbol ∈ multiBuilderResultEx.tape_alphabet :=
  ⟨by decide,
   claim10_blank_in_tape_alphabet.1 builderOpsEx '.' builderResultEx (by decide),
   by decide,
   by decide,
   claim10_blank_in_tape_alphabet.2 multiBuilderOpsEx 2 '.' multiNewEx
     multiBuilderResultEx (by decide) (by decide)⟩

/-! ## Claim C2 -/

theorem stepFn_step_count {m : TuringMachine} {c c2 : Configuration}
    (h : stepFn m c = some c2) : c2.step_count = c.step_count + 1 := by
  unfold stepFn at h
  cases ht : m.get_transition c.current_state c.tape.read with
  | none =>
    rw [ht] at h
    exact absurd h (by simp)
  | some t =>
    simp only [ht] at h
    injection h with h1
    subst h1
    rfl

theorem simLoop_final_step_ge (m : TuringMachine) (N : Nat) (et : Bool) :
    ∀ (fuel : Nat) (v : List String) (tr : List Configuration) (c : Configuration)
      (o : SimOutcome), simLoop m N et fuel v tr c = some o →
      c.step_count ≤ o.final.step_count := by
  intro fuel
  induction fuel with
  | zero =>
    intro v tr c o h
    simp [simLoop] at h
  | succ n ih =>
    intro v tr c o h
    simp only [simLoop] at h
    split at h
    · injection h with h1
      subst h1
      exact Nat.le_refl _
    · split at h
      · injection h with h1
        subst h1
        exact Nat.le_refl _
      · split at h
        · injection h with h1
          subst h1
          exact Nat.le_refl _
        · split at h
          · injection h with h1
            subst h1
            exact Nat.le_refl _
          · rename_i c2 hs
            have hc2 := stepFn_step_count hs
            split at h
            · injection h with h1
              subst h1
              show c.step_count ≤ c2.step_count
              omega
            · have h2 := ih _ _ _ _ h
              omega

theorem simLoop_budget_change (m : TuringMachine) (N N2 : Nat) (et : Bool) :
    ∀ (fuel : Nat) (v : List String) (tr : List Configuration) (c : Configuration)
      (o : SimOutcome),
      simLoop m N et fuel v tr c = some o →
      (o.result = .ACCEPTED ∨ o.result = .REJECTED) →
      (N2 = 0 ∨ o.final.step_count < N2) →
      simLoop m N2 et fuel v tr c = some o := by
  intro fuel
  induction fuel with
  | zero =>
    intro v tr c o h hres hN2
    simp [simLoop] at h
  | succ n ih =>
    intro v tr c o h hres hN2
    have hstep := simLoop_final_step_ge m N et (n + 1) v tr c o h
    simp only [simLoop] at h ⊢
    split at h
    · injection h with h1
      subst h1
      rcases hres with h2 | h2 <;> simp at h2
    · have hb2 : ¬ (0 < N2 ∧ N2 ≤ c.step_count) := by
        rcases hN2 with h0 | hlt
        · omega
        · omega
      rw [if_neg hb2]
      split at h
      · rename_i hacc
        rw [if_pos hacc]
        exact h
      · rename_i hacc
        rw [if_neg hacc]
        split at h
        · rename_i hrej
          rw [if_pos hrej]
          exact h
        · rename_i hrej
          rw [if_neg hrej]
          cases hs : stepFn m c with
          | none =>
            simp only [hs] at h
            injection h with h1
            subst h1
            rcases hres with h2 | h2 <;> simp at h2
          | some c2 =>
            simp only [hs] at h ⊢
            split at h
            · rename_i hvis
              injection h with h1
              subst h1
              rcases hres with h2 | h2 <;> simp at h2
            · rename_i hvis
              rw [if_neg hvis]
              exact ih _ _ _ _ h hres hN2

theorem simLoop_result_ne_error (m : TuringMachine) (N : Nat) (et : Bool) :
    ∀ (fuel : Nat) (v : List String) (tr : List Configuration) (c : Configuration)
      (o : SimOutcome), simLoop m N et fuel v tr c = some o → o.result ≠ .ERROR := by
  intro fuel
  induction fuel with
  | zero =>
    intro v tr c o h
    simp [simLoop] at h
  | succ n ih =>
    intro v tr c o h
    simp only [simLoop] at h
    split at h
    · injection h with h1
      subst h1
      simp
    · split at h
      · injection h with h1
        subst h1
        simp
      · split at h
        · injection h with h1
          subst h1
          simp
        · rename_i hrej
          split at h
          · rename_i hs
            exact absurd (Option.isNone_iff_eq_none.mpr ((stepFn_eq_none_iff m c).mp hs)) hrej
          · split at h
            · injection h with h1
              subst h1
              simp
            · exact ih _ _ _ _ h

/-- Counterexample for C2 as frozen: `oneStepAcceptMachine` accepts the
word `a` with budget 2 after s = 1 step, but with budget N2 = 1 ≥ s the
run returns INFINITE, because the budget check `step_count >= max_steps`
runs before the accept check. -/
theorem claim2_counterexample :
    simulate oneStepAcceptMachine "a" false 2 10 = some acceptOutcome ∧
    acceptOutcome.result = .ACCEPTED ∧
    acceptOutcome.final.step_count = 1 ∧
    (simulate oneStepAcceptMachine "a" false 1 10).map (fun o => o.result) =
      some .INFINITE ∧
    SimulationResult.INFINITE ≠ SimulationResult.ACCEPTED := by
  refine ⟨by decide, by decide, by decide, by decide, by decide⟩

/-- Claim C2 (amended): if `simulate` returns ACCEPTED or REJECTED having
executed s steps, then every budget that is 0 (unbounded) or strictly
greater than s produces the identical outcome (with budget exactly s the
`step_count >= max_steps` check fires first and yields INFINITE); and
under the preconditions (valid machine, word over the input alphabet) no
budget ever makes the result ERROR. -/
theorem claim2_budget_monotonicity :
    (∀ (m : TuringMachine) (w : String) (et : Bool) (N N2 fuel : Nat) (o : SimOutcome),
       simulate m w et N fuel = some o →
       (o.result = .ACCEPTED ∨ o.result = .REJECTED) →
       (N2 = 0 ∨ o.final.step_count < N2) →
       simulate m w et N2 fuel = some o) ∧
    (∀ (m : TuringMachine) (w : String) (et : Bool) (N fuel : Nat) (o : SimOutcome),
       m.is_valid = true → m.is_valid_input_word w = true →
       simulate m w et N fuel = some o → o.result ≠ .ERROR) := by
  constructor
  · intro m w et N N2 fuel o h hres hN2
    simp only [simulate] at h ⊢
    split at h
    · injection h with h1
      subst h1
      rcases hres with h2 | h2 <;> simp at h2
    · rename_i hval
      rw [if_neg hval]
      split at h
      · injection h with h1
        subst h1
        rcases hres with h2 | h2 <;> simp at h2
      · rename_i hword
        rw [if_neg hword]
        exact simLoop_budget_change m N N2 et fuel _ _ _ o h hres hN2
  · intro m w et N fuel o hv hw h
    simp only [simulate] at h
    rw [if_neg (fun hc => hc hv)] at h
    rw [if_neg (fun hc => hc hw)] at h
    exact simLoop_result_ne_error m N et fuel _ _ _ o h

/-- Witness for C2: raising the budget from 2 to 5 reproduces the
accepting outcome on `oneStepAcceptMachine`. -/
theorem claim2_budget_monotonicity_witness :
    simulate oneStepAcceptMachine "a" false 5 10 = some acceptOutcome ∧
    (acceptOutcome.result = .ACCEPTED ∨ acceptOutcome.result = .REJECTED) ∧
    ((5 : Nat) = 0 ∨ acceptOutcome.final.step_count < 5) :=
  ⟨claim2_budget_monotonicity.1 oneStepAcceptMachine "a" false 2 5 10 acceptOutcome
      (by decide) (Or.inl (by decide)) (Or.inr (by decide)),
   Or.inl (by decide), Or.inr (by decide)⟩

/-! ## Claim C4 -/

/-- Claim C4 evaluated at the failing input: `rightMoverMachine` on the
empty word with `max_steps = 2` exhausts the budget while every
configuration fingerprint in the run (`q0|0|`, `q0|1|`, `q0|2|`) is
distinct, yet `is_infinite_loop_detected` reports `true`, because every
reached configuration — including the final one — was marked visited
when it was created.  The claim (spec P5) requires loop-detected = true
to imply that some fingerprint was produced a second time, which fails
here; `main.cpp`'s budget-exhaustion message branch is unreachable. -/
theorem claim4_budget_exhaustion_flagged_as_loop :
    (simulate rightMoverMachine "" true 2 10).map (fun o => o.result) =
      some .INFINITE ∧
    (simulate rightMoverMachine "" true 2 10).map
      (fun o => is_infinite_loop_detected o) = some true ∧
    (simulate rightMoverMachine "" true 2 10).map
      (fun o => decide (o.trace.map Configuration.to_compact_string).Nodup) =
      some true ∧
    (simulate rightMoverMachine "" true 2 10).map (fun o => o.final.step_count) =
      some 2 := by
  refine ⟨by decide, by decide, by decide, by decide⟩

/-! ## Claim C8 -/

/-- Claim C8: under the tape-compactness invariant I5 (only non-blank
symbols are stored, which `write` and `reset` maintain), `get_content`
returns exactly the spec's minimal string — from the leftmost to the
rightmost non-blank cell, interior holes rendered as the blank — and the
empty string when the tape holds no non-blank cell. -/
theorem claim8_content_minimal :
    ∀ (t : Tape), (∀ kv ∈ t.cells, kv.2 ≠ t.blank_symbol) →
      t.get_content = content_spec t ∧
      (t.cells.filter (fun kv => kv.2 != t.blank_symbol) = [] →
        t.get_content = "") := by
  intro t hnb
  have hfilter : t.cells.filter (fun kv => kv.2 != t.blank_symbol) = t.cells :=
    List.filter_eq_self.mpr (fun kv hm => by simpa using hnb kv hm)
  constructor
  · unfold content_spec Tape.get_content
    rw [hfilter]
    cases hcells : t.cells with
    | nil => rfl
    | cons c rest => rfl
  · intro h
    rw [hfilter] at h
    unfold Tape.get_content
    rw [h]

/-- Witness for C8: a two-cell tape with an interior gap renders as
`a.b`. -/
theorem claim8_content_minimal_witness :
    (∀ kv ∈ exampleContentTape.cells, kv.2 ≠ exampleContentTape.blank_symbol) ∧
    (exampleContentTape.get_content = content_spec exampleContentTape ∧
      (exampleContentTape.cells.filter
          (fun kv => kv.2 != exampleContentTape.blank_symbol) = [] →
        exampleContentTape.get_content = "")) ∧
    exampleContentTape.get_content = "a.b" :=
  ⟨by decide, claim8_content_minimal exampleContentTape (by decide), by decide⟩

/-! ## Claim C3: decimal-rendering lemmas -/

theorem natDigitsAux_irrelevant :
    ∀ (f1 f2 n : Nat), n < f1 → n < f2 → natDigitsAux f1 n = natDigitsAux f2 n := by
  intro f1
  induction f1 with
  | zero =>
    intro f2 n h1 h2
    omega
  | succ k ih =>
    intro f2 n h1 h2
    cases f2 with
    | zero => omega
    | succ k2 =>
      simp only [natDigitsAux]
      by_cases h : n < 10
      · rw [if_pos h, if_pos h]
      · rw [if_neg h, if_neg h]
        have hd : n / 10 < n := Nat.div_lt_self (by omega) (by omega)
        rw [ih k2 (n / 10) (by omega) (by omega)]

theorem natDigits_unfold (n : Nat) :
    natDigits n = if n < 10 then [digitChar n]
      else natDigits (n / 10) ++ [digitChar (n % 10)] := by
  have hstep : natDigitsAux (n + 1) n =
      if n < 10 then [digitChar n] else natDigitsAux n (n / 10) ++ [digitChar (n % 10)] := rfl
  by_cases h : n < 10
  · unfold natDigits
    rw [hstep, if_pos h, if_pos h]
  · have hd : n / 10 < n := Nat.div_lt_self (by omega) (by omega)
    unfold natDigits
    rw [hstep, if_neg h, if_neg h,
      natDigitsAux_irrelevant n (n / 10 + 1) (n / 10) (by omega) (by omega)]

theorem digitChar_mem_digitList (n : Nat) : digitChar n ∈ digitList := by
  unfold digitChar
  split <;> decide

theorem digitChar_inj_lt {m n : Nat} (hm : m < 10) (hn : n < 10)
    (h : digitChar m = digitChar n) : m = n := by
  interval_cases m <;> interval_cases n <;> first | rfl | exact absurd h (by decide)

theorem natDigits_ne_nil (n : Nat) : natDigits n ≠ [] := by
  rw [natDigits_unfold]
  by_cases h : n < 10
  · rw [if_pos h]
    simp
  · rw [if_neg h]
    simp

theorem natDigits_mem_digitList :
    ∀ (n : Nat) (c : Char), c ∈ natDigits n → c ∈ digitList := by
  intro n
  induction n using Nat.strong_induction_on with
  | _ n ih =>
    intro c hc
    rw [natDigits_unfold] at hc
    by_cases h : n < 10
    · rw [if_pos h] at hc
      simp at hc
      subst hc
      exact digitChar_mem_digitList n
    · rw [if_neg h] at hc
      rcases List.mem_append.mp hc with hc1 | hc1
      · exact ih (n / 10) (Nat.div_lt_self (by omega) (by omega)) c hc1
      · simp at hc1
        subst hc1
        exact digitChar_mem_digitList _

theorem natDigits_injective : ∀ (m n : Nat), natDigits m = natDigits n → m = n := by
  intro m
  induction m using Nat.strong_induction_on with
  | _ m ih =>
    intro n h
    rw [natDigits_unfold m, natDigits_unfold n] at h
    by_cases hm : m < 10 <;> by_cases hn : n < 10
    · rw [if_pos hm, if_pos hn] at h
      injection h with h1 _
      exact digitChar_inj_lt hm hn h1
    · rw [if_pos hm, if_neg hn] at h
      have hlen := congrArg List.length h
      simp only [List.length_append, List.length_cons, List.length_nil] at hlen
      exact absurd (List.eq_nil_of_length_eq_zero (by omega)) (natDigits_ne_nil (n / 10))
    · rw [if_neg hm, if_pos hn] at h
      have hlen := congrArg List.length h
      simp only [List.length_append, List.length_cons, List.length_nil] at hlen
      exact absurd (List.eq_nil_of_length_eq_zero (by omega)) (natDigits_ne_nil (m / 10))
    · rw [if_neg hm, if_neg hn] at h
      obtain ⟨h1, h2⟩ := List.append_inj' h rfl
      have hdiv := ih (m / 10) (Nat.div_lt_self (by omega) (by omega)) (n / 10) h1
      injection h2 with h3 _
      have hmod := digitChar_inj_lt (Nat.mod_lt _ (by omega)) (Nat.mod_lt _ (by omega)) h3
      omega

theorem intChars_ne_nil (i : Int) : intChars i ≠ [] := by
  cases i with
  | ofNat n => exact natDigits_ne_nil n
  | negSucc n => simp [intChars]

theorem intChars_mem (i : Int) (c : Char) (h : c ∈ intChars i) :
    c ∈ '-' :: digitList := by
  cases i with
  | ofNat n => exact List.mem_cons_of_mem _ (natDigits_mem_digitList n c h)
  | negSucc n =>
    simp only [intChars] at h
    rcases List.mem_cons.mp h with h1 | h1
    · subst h1
      exact List.mem_cons_self _ _
    · exact List.mem_cons_of_mem _ (natDigits_mem_digitList _ c h1)

theorem intChars_injective : ∀ (i j : Int), intChars i = intChars j → i = j := by
  intro i j h
  cases i with
  | ofNat m =>
    cases j with
    | ofNat n => exact congrArg Int.ofNat (natDigits_injective m n h)
    | negSucc n =>
      have hm : '-' ∈ natDigits m := by
        rw [show natDigits m = intChars (Int.ofNat m) from rfl, h]
        exact List.mem_cons_self _ _
      exact absurd (natDigits_mem_digitList m _ hm) (by decide)
  | negSucc m =>
    cases j with
    | ofNat n =>
      have hn : '-' ∈ natDigits n := by
        rw [show natDigits n = intChars (Int.ofNat n) from rfl, ← h]
        exact List.mem_cons_self _ _
      exact absurd (natDigits_mem_digitList n _ hn) (by decide)
    | negSucc n =>
      simp only [intChars] at h
      injection h with _ h2
      have := natDigits_injective (m + 1) (n + 1) h2
      rw [Int.negSucc.injEq]
      omega

theorem bar_not_mem_intChars (i : Int) : '|' ∉ intChars i :=
  fun h => absurd (intChars_mem i _ h) (by decide)

theorem comma_not_mem_intChars (i : Int) : ',' ∉ intChars i :=
  fun h => absurd (intChars_mem i _ h) (by decide)

theorem sep_split {sep : Char} :
    ∀ (a1 a2 r1 r2 : List Char), sep ∉ a1 → sep ∉ a2 →
      a1 ++ sep :: r1 = a2 ++ sep :: r2 → a1 = a2 ∧ r1 = r2 := by
  intro a1
  induction a1 with
  | nil =>
    intro a2 r1 r2 h1 h2 h
    cases a2 with
    | nil =>
      simp only [List.nil_append] at h
      injection h with _ ht
      exact ⟨rfl, ht⟩
    | cons b a2t =>
      simp only [List.nil_append, List.cons_append] at h
      injection h with hb _
      exact absurd (List.mem_cons.mpr (Or.inl hb)) h2
  | cons a a1t ih =>
    intro a2 r1 r2 h1 h2 h
    cases a2 with
    | nil =>
      simp only [List.nil_append, List.cons_append] at h
      injection h with hb _
      exact absurd (List.mem_cons.mpr (Or.inl hb.symm)) h1
    | cons b a2t =>
      simp only [List.cons_append] at h
      injection h with hab ht
      have h1t : sep ∉ a1t := fun hm => h1 (List.mem_cons_of_mem _ hm)
      have h2t : sep ∉ a2t := fun hm => h2 (List.mem_cons_of_mem _ hm)
      obtain ⟨he, hr⟩ := ih a2t r1 r2 h1t h2t ht
      exact ⟨by rw [hab, he], hr⟩

/-! ## Claim C3: fingerprint-encoding lemmas -/

theorem to_compact_string_data (c : Configuration) :
    c.to_compact_string.data =
      c.current_state.data ++ '|' ::
        (intChars c.tape.head_position ++ '|' :: c.tape.get_content.data) := by
  show (c.current_state ++ "|" ++ intStr c.tape.head_position ++ "|" ++
      c.tape.get_content).data = _
  rw [String.data_append, String.data_append, String.data_append, String.data_append]
  show c.current_state.data ++ ['|'] ++ intChars c.tape.head_position ++ ['|'] ++
      c.tape.get_content.data = _
  simp [List.append_assoc]

theorem joinSep_data (sep : String) :
    ∀ (l : List String),
      (joinSep sep l).data = joinChars sep.data (l.map String.data) := by
  intro l
  induction l with
  | nil => rfl
  | cons s rest ih =>
    cases rest with
    | nil => rfl
    | cons s2 rest2 =>
      show (s ++ sep ++ joinSep sep (s2 :: rest2)).data = _
      rw [String.data_append, String.data_append, ih]
      rfl

theorem joinChars_mem {sep : List Char} :
    ∀ (l : List (List Char)) (c : Char),
      c ∈ joinChars sep l → c ∈ sep ∨ ∃ p ∈ l, c ∈ p := by
  intro l
  induction l with
  | nil =>
    intro c hc
    simp [joinChars] at hc
  | cons x rest ih =>
    intro c hc
    cases rest with
    | nil =>
      right
      exact ⟨x, List.mem_cons_self _ _, hc⟩
    | cons y rest2 =>
      simp only [joinChars] at hc
      rcases List.mem_append.mp hc with h12 | h3
      · rcases List.mem_append.mp h12 with h1 | h2
        · right
          exact ⟨x, List.mem_cons_self _ _, h1⟩
        · left
          exact h2
      · rcases ih c h3 with h | ⟨p, hp, hcp⟩
        · left
          exact h
        · right
          exact ⟨p, List.mem_cons_of_mem _ hp, hcp⟩

theorem joinChars_inj_ne_nil {sc : Char} :
    ∀ (l1 l2 : List (List Char)),
      (∀ p ∈ l1, p ≠ [] ∧ sc ∉ p) → (∀ p ∈ l2, p ≠ [] ∧ sc ∉ p) →
      joinChars [sc] l1 = joinChars [sc] l2 → l1 = l2 := by
  intro l1
  induction l1 with
  | nil =>
    intro l2 hp1 hp2 h
    cases l2 with
    | nil => rfl
    | cons y rest =>
      cases rest with
      | nil => exact absurd h.symm (hp2 y (List.mem_cons_self _ _)).1
      | cons y2 rest2 =>
        have hlen := congrArg List.length h
        simp only [joinChars, List.length_append, List.length_cons,
          List.length_nil] at hlen
        omega
  | cons x rest ih =>
    intro l2 hp1 hp2 h
    cases l2 with
    | nil =>
      cases rest with
      | nil => exact absurd h (hp1 x (List.mem_cons_self _ _)).1
      | cons x2 rest1 =>
        have hlen := congrArg List.length h
        simp only [joinChars, List.length_append, List.length_cons,
          List.length_nil] at hlen
        omega
    | cons y rest2 =>
      cases rest with
      | nil =>
        cases rest2 with
        | nil =>
          simp only [joinChars] at h
          rw [h]
        | cons y2 r2 =>
          simp only [joinChars] at h
          have hsc : sc ∈ x := by
            rw [h]
            simp
          exact absurd hsc (hp1 x (List.mem_cons_self _ _)).2
      | cons x2 r1 =>
        cases rest2 with
        | nil =>
          simp only [joinChars] at h
          have hsc : sc ∈ y := by
            rw [← h]
            simp
          exact absurd hsc (hp2 y (List.mem_cons_self _ _)).2
        | cons y2 r2 =>
          simp only [joinChars] at h
          rw [List.append_assoc, List.append_assoc, List.singleton_append,
            List.singleton_append] at h
          obtain ⟨he, hr⟩ := sep_split x y _ _
            (hp1 x (List.mem_cons_self _ _)).2 (hp2 y (List.mem_cons_self _ _)).2 h
          have ht := ih (y2 :: r2)
            (fun p hp => hp1 p (List.mem_cons_of_mem _ hp))
            (fun p hp => hp2 p (List.mem_cons_of_mem _ hp)) hr
          rw [he, ht]

theorem joinChars_inj_length {sc : Char} :
    ∀ (l1 l2 : List (List Char)), l1.length = l2.length →
      (∀ p ∈ l1, sc ∉ p) → (∀ p ∈ l2, sc ∉ p) →
      joinChars [sc] l1 = joinChars [sc] l2 → l1 = l2 := by
  intro l1
  induction l1 with
  | nil =>
    intro l2 hlen hp1 hp2 h
    cases l2 with
    | nil => rfl
    | cons y rest => simp at hlen
  | cons x rest ih =>
    intro l2 hlen hp1 hp2 h
    cases l2 with
    | nil => simp at hlen
    | cons y rest2 =>
      cases rest with
      | nil =>
        cases rest2 with
        | nil =>
          simp only [joinChars] at h
          rw [h]
        | cons y2 r2 => simp at hlen
      | cons x2 r1 =>
        cases rest2 with
        | nil => simp at hlen
        | cons y2 r2 =>
          simp only [joinChars] at h
          rw [List.append_assoc, List.append_assoc, List.singleton_append,
            List.singleton_append] at h
          obtain ⟨he, hr⟩ := sep_split x y _ _
            (hp1 x (List.mem_cons_self _ _)) (hp2 y (List.mem_cons_self _ _)) h
          have hlen2 : (x2 :: r1).length = (y2 :: r2).length := by
            simp only [List.length_cons] at hlen ⊢
            omega
          have ht := ih (y2 :: r2) hlen2
            (fun p hp => hp1 p (List.mem_cons_of_mem _ hp))
            (fun p hp => hp2 p (List.mem_cons_of_mem _ hp)) hr
          rw [he, ht]

theorem multi_to_compact_string_data (c : MultiConfiguration) :
    c.to_compact_string.data =
      c.current_state.data ++ '|' ::
        (joinChars [','] (c.tapes.head_list.map intChars) ++ '|' ::
          joinChars ['|'] (c.tapes.content_list.map String.data)) := by
  show (c.current_state ++ "|" ++ joinSep "," (c.tapes.head_list.map intStr) ++ "|" ++
      joinSep "|" c.tapes.content_list).data = _
  rw [String.data_append, String.data_append, String.data_append, String.data_append,
    joinSep_data, joinSep_data]
  have hmap : (c.tapes.head_list.map intStr).map String.data =
      c.tapes.head_list.map intChars := by
    rw [List.map_map]
    rfl
  rw [hmap]
  show c.current_state.data ++ ['|'] ++ joinChars [','] (c.tapes.head_list.map intChars)
      ++ ['|'] ++ joinChars ['|'] (c.tapes.content_list.map String.data) = _
  simp [List.append_assoc]

theorem bar_not_mem_heads (hs : List Int) :
    '|' ∉ joinChars [','] (hs.map intChars) := by
  intro h
  rcases joinChars_mem _ _ h with h1 | ⟨p, hp, hcp⟩
  · simp at h1
  · rcases List.mem_map.mp hp with ⟨i, _, rfl⟩
    exact absurd (intChars_mem i _ hcp) (by decide)

theorem head_list_length (mt : MultiTape) : mt.head_list.length = mt.num_tapes := by
  simp [MultiTape.head_list]

theorem content_list_length (mt : MultiTape) :
    mt.content_list.length = mt.num_tapes := by
  simp [MultiTape.content_list]

/-! ## Claim C3: the theorems -/

/-- Counterexample for C3 as frozen: the configurations
`barStateConfiguration` (state `q|0`, tape `a`) and
`plainStateConfiguration` (state `q`, tape `0|a`) differ in state and in
minimal tape content yet produce the identical fingerprint string
`q|0|0|a`, so the backward direction of the claimed two-sided
equivalence fails. -/
theorem claim3_counterexample :
    barStateConfiguration.to_compact_string =
      plainStateConfiguration.to_compact_string ∧
    barStateConfiguration.current_state ≠ plainStateConfiguration.current_state ∧
    barStateConfiguration.tape.get_content ≠ plainStateConfiguration.tape.get_content := by
  refine ⟨by decide, by decide, by decide⟩

/-- Claim C3 (amended): identical state, head position(s) and minimal
tape content(s) always give identical fingerprints; the converse holds
provided no state name contains the separator `|` and (for the
multi-tape fingerprint) no tape content contains `|` — under those
provisos `to_compact_string` is a two-sided equivalence on
(state, heads, contents). -/
theorem claim3_fingerprint_equivalence :
    (∀ (c1 c2 : Configuration),
       '|' ∉ c1.current_state.data → '|' ∉ c2.current_state.data →
       (c1.to_compact_string = c2.to_compact_string ↔
         (c1.current_state = c2.current_state ∧
          c1.tape.head_position = c2.tape.head_position ∧
          c1.tape.get_content = c2.tape.get_content))) ∧
    (∀ (c1 c2 : MultiConfiguration),
       '|' ∉ c1.current_state.data → '|' ∉ c2.current_state.data →
       (∀ s ∈ c1.tapes.content_list, '|' ∉ s.data) →
       (∀ s ∈ c2.tapes.content_list, '|' ∉ s.data) →
       (c1.to_compact_string = c2.to_compact_string ↔
         (c1.current_state = c2.current_state ∧
          c1.tapes.head_list = c2.tapes.head_list ∧
          c1.tapes.content_list = c2.tapes.content_list))) := by
  constructor
  · intro c1 c2 h1 h2
    constructor
    · intro h
      have hd := congrArg String.data h
      rw [to_compact_string_data, to_compact_string_data] at hd
      obtain ⟨hs, hrest⟩ := sep_split _ _ _ _ h1 h2 hd
      obtain ⟨hi, hc⟩ := sep_split _ _ _ _
        (bar_not_mem_intChars _) (bar_not_mem_intChars _) hrest
      exact ⟨String.ext hs, intChars_injective _ _ hi, String.ext hc⟩
    · intro ⟨hs, hh, hc⟩
      show c1.current_state ++ "|" ++ intStr c1.tape.head_position ++ "|" ++
          c1.tape.get_content = _
      rw [hs, hh, hc]
      rfl
  · intro c1 c2 h1 h2 hc1 hc2
    constructor
    · intro h
      have hd := congrArg String.data h
      rw [multi_to_compact_string_data, multi_to_compact_string_data] at hd
      obtain ⟨hs, hrest⟩ := sep_split _ _ _ _ h1 h2 hd
      obtain ⟨hh, hcc⟩ := sep_split _ _ _ _
        (bar_not_mem_heads _) (bar_not_mem_heads _) hrest
      have hheads : c1.tapes.head_list = c2.tapes.head_list := by
        have hmaps := joinChars_inj_ne_nil _ _
          (fun p hp => by
            rcases List.mem_map.mp hp with ⟨i, _, rfl⟩
            exact ⟨intChars_ne_nil i, comma_not_mem_intChars i⟩)
          (fun p hp => by
            rcases List.mem_map.mp hp with ⟨i, _, rfl⟩
            exact ⟨intChars_ne_nil i, comma_not_mem_intChars i⟩) hh
        exact List.map_injective_iff.mpr
          (fun a b hab => intChars_injective a b hab) hmaps
      have hnum : c1.tapes.num_tapes = c2.tapes.num_tapes := by
        rw [← head_list_length c1.tapes, ← head_list_length c2.tapes, hheads]
      have hclen : (c1.tapes.content_list.map String.data).length =
          (c2.tapes.content_list.map String.data).length := by
        simp only [List.length_map, content_list_length]
        exact hnum
      have hcontents : c1.tapes.content_list = c2.tapes.content_list := by
        have hmaps := joinChars_inj_length _ _ hclen
          (fun p hp => by
            rcases List.mem_map.mp hp with ⟨s, hsm, rfl⟩
            exact hc1 s hsm)
          (fun p hp => by
            rcases List.mem_map.mp hp with ⟨s, hsm, rfl⟩
            exact hc2 s hsm) hcc
        exact List.map_injective_iff.mpr
          (fun a b hab => String.ext hab) hmaps
      exact ⟨String.ext hs, hheads, hcontents⟩
    · intro ⟨hs, hh, hc⟩
      show c1.current_state ++ "|" ++ joinSep "," (c1.tapes.head_list.map intStr) ++
          "|" ++ joinSep "|" c1.tapes.content_list = _
      rw [hs, hh, hc]
      rfl

/-- Witness for C3: the amended equivalence instantiated on two
single-tape configurations differing only in the state. -/
theorem claim3_fingerprint_equivalence_witness :
    ('|' ∉ ("q0" : String).data) ∧
    ((⟨"q0", ⟨[(0, 'a')], 0, '.'⟩, 0⟩ : Configuration).to_compact_string =
        (⟨"q1", ⟨[(0, 'a')], 0, '.'⟩, 0⟩ : Configuration).to_compact_string ↔
      (("q0" : String) = "q1" ∧
       (0 : Int) = 0 ∧
       (⟨[(0, 'a')], 0, '.'⟩ : Tape).get_content =
         (⟨[(0, 'a')], 0, '.'⟩ : Tape).get_content)) :=
  ⟨by decide,
   claim3_fingerprint_equivalence.1 ⟨"q0", ⟨[(0, 'a')], 0, '.'⟩, 0⟩
     ⟨"q1", ⟨[(0, 'a')], 0, '.'⟩, 0⟩ (by decide) (by decide)⟩

end MTSim
